import Mathlib

/-!
Verification development for the Akamai domain-validation batch scripts
(`akamai_dom_delete.py`, `akamai_dom_validate.py`, `akamai_dom_script.py`).

The Python functions are shallowly embedded: JSON values become the `Json`
inductive, Python exceptions become `Except String`, the HTTP transport
becomes an oracle `Nat → List DTarget → HttpResp` consulted once per request
(the `Nat` is a running request counter), and the recursive batch submitters
take an explicit fuel argument, returning `none` when the fuel is exhausted
before the recursion has finished.

String operations are re-implemented over `List Char` so that every
definition reduces inside the kernel; they mirror the Python semantics of
`str.strip`, `str.lower`, `str.upper`, `str.split`, `str.startswith`,
substring containment and `int(...)` parsing (sign, surrounding whitespace,
digit groups with underscores).  JSON numbers are modelled as integers; no
claim depends on float payloads.
-/

/-! ### Python-style string primitives over `List Char` -/

def isPrefixL : List Char → List Char → Bool
  | [], _ => true
  | _ :: _, [] => false
  | a :: as, b :: bs => a = b && isPrefixL as bs

def containsL (needle : List Char) : List Char → Bool
  | [] => isPrefixL needle []
  | c :: rest => isPrefixL needle (c :: rest) || containsL needle rest

/-- Python `needle in hay` for strings. -/
def strContains (hay needle : String) : Bool := containsL needle.data hay.data

/-- Python `s.startswith(p)`. -/
def sStartsWith (s p : String) : Bool := isPrefixL p.data s.data

/-- Python `s.split(sep)` for a one-character separator. -/
def splitOnChar (sep : Char) : List Char → List (List Char)
  | [] => [[]]
  | c :: rest =>
    if c = sep then [] :: splitOnChar sep rest
    else
      match splitOnChar sep rest with
      | [] => [[c]]
      | g :: gs => (c :: g) :: gs

/-- Python `s.strip()`. -/
def pyStrip (s : String) : String :=
  ⟨((s.data.dropWhile Char.isWhitespace).reverse.dropWhile Char.isWhitespace).reverse⟩

/-- Python `s.lower()` (ASCII). -/
def pyLower (s : String) : String := ⟨s.data.map Char.toLower⟩

/-- Python `s.upper()` (ASCII). -/
def pyUpper (s : String) : String := ⟨s.data.map Char.toUpper⟩

def natDigitsRev : Nat → Nat → List Char
  | 0, _ => []
  | fuel + 1, n =>
    if n < 10 then [Char.ofNat (48 + n)]
    else Char.ofNat (48 + n % 10) :: natDigitsRev fuel (n / 10)

def natToStr (n : Nat) : String := ⟨(natDigitsRev (n + 1) n).reverse⟩

/-- Python `str(i)` for an integer. -/
def intToStr (i : Int) : String :=
  if i < 0 then "-" ++ natToStr (-i).toNat else natToStr i.toNat

def noDoubleUnd : List Char → Bool
  | [] => true
  | a :: rest => !(a = '_' && rest.head? = some '_') && noDoubleUnd rest

/-- Digit-group well-formedness of Python `int(...)`: nonempty, only digits and
underscores, no leading/trailing underscore, no doubled underscore. -/
def undRuleOk (cs : List Char) : Bool :=
  !cs.isEmpty && cs.head? ≠ some '_' && cs.getLast? ≠ some '_' &&
    noDoubleUnd cs && cs.all (fun c => c.isDigit || c = '_')

def digitsVal (cs : List Char) : Nat :=
  cs.foldl (fun acc c => if c = '_' then acc else acc * 10 + (c.toNat - 48)) 0

/-- Python `int(s)`: `none` models a raised `ValueError`. -/
def pyInt? (s : String) : Option Int :=
  let cs := ((s.data.dropWhile Char.isWhitespace).reverse.dropWhile Char.isWhitespace).reverse
  match cs with
  | '-' :: rest => if undRuleOk rest then some (-(digitsVal rest : Int)) else none
  | '+' :: rest => if undRuleOk rest then some ((digitsVal rest : Int)) else none
  | _ => if undRuleOk cs then some ((digitsVal cs : Int)) else none

/-! ### JSON values and Python dynamic semantics -/

/-- A parsed JSON value as the Python scripts see it (`response.json()`ized).
Numbers are modelled as integers. -/
inductive Json where
  | null
  | bool (b : Bool)
  | num (n : Int)
  | str (s : String)
  | arr (elems : List Json)
  | obj (kvs : List (String × Json))

/-- Last binding wins, matching `json.loads` duplicate-key semantics. -/
def lookupLast (kvs : List (String × Json)) (k : String) : Option Json :=
  match kvs with
  | [] => none
  | (k2, v) :: rest =>
    match lookupLast rest k with
    | some w => some w
    | none => if k2 = k then some v else none

/-- Python `d.get(k, default)`: raises `AttributeError` on a non-dict. -/
def pyGetE (j : Json) (k : String) (d : Json) : Except String Json :=
  match j with
  | .obj kvs => .ok ((lookupLast kvs k).getD d)
  | _ => .error "AttributeError: object has no attribute get"

/-- Total `d.get(k, default)` for places where `j` is already known to be a
dict; returns the default on a non-dict instead of raising. -/
def pyGetO (j : Json) (k : String) (d : Json) : Json :=
  match j with
  | .obj kvs => (lookupLast kvs k).getD d
  | _ => d

def dedupStrs : List String → List String
  | [] => []
  | k :: rest => k :: (dedupStrs rest).filter (fun x => x ≠ k)

/-- Python `for x in j`: lists iterate elements, strings iterate characters,
dicts iterate keys, anything else raises `TypeError`. -/
def pyIter (j : Json) : Except String (List Json) :=
  match j with
  | .arr xs => .ok xs
  | .str s => .ok (s.data.map (fun c => Json.str ⟨[c]⟩))
  | .obj kvs => .ok ((dedupStrs (kvs.map (fun p => p.1))).map Json.str)
  | _ => .error "TypeError: object is not iterable"

/-- Python truthiness. -/
def pyTruthy (j : Json) : Bool :=
  match j with
  | .null => false
  | .bool b => b
  | .num n => n ≠ 0
  | .str s => s ≠ ""
  | .arr xs => !xs.isEmpty
  | .obj kvs => !kvs.isEmpty

/-- Python `j == s` for a string literal `s`. -/
def Json.isStrEq (j : Json) (s : String) : Bool :=
  match j with
  | .str t => t = s
  | _ => false

/-- Python `==` on hashable JSON scalars (`True == 1` holds in Python). -/
def pyEq : Json → Json → Bool
  | .null, .null => true
  | .bool a, .bool b => a = b
  | .bool a, .num m => (if a then (1 : Int) else 0) = m
  | .num n, .bool b => n = (if b then (1 : Int) else 0)
  | .num n, .num m => n = m
  | .str s, .str t => s = t
  | _, _ => false

/-- Python `needle in j` for a string `needle`: substring test on strings,
membership on lists, key membership on dicts, `TypeError` otherwise. -/
def pyInJ (needle : String) (j : Json) : Except String Bool :=
  match j with
  | .str s => .ok (strContains s needle)
  | .arr xs => .ok (xs.any (fun e => e.isStrEq needle))
  | .obj kvs => .ok (kvs.any (fun p => p.1 = needle))
  | _ => .error "TypeError: argument is not iterable"

/-- Hashable JSON values (usable as Python dict keys). -/
def hashableJ : Json → Bool
  | .arr _ => false
  | .obj _ => false
  | _ => true

mutual
/-- Python `repr` of a parsed-JSON value. -/
def pyRepr : Json → String
  | .null => "None"
  | .bool b => if b then "True" else "False"
  | .num n => intToStr n
  | .str s => "\x27" ++ s ++ "\x27"
  | .arr xs => "[" ++ pyReprItems xs ++ "]"
  | .obj kvs => "\x7b" ++ pyReprKvs kvs ++ "\x7d"

def pyReprItems : List Json → String
  | [] => ""
  | [x] => pyRepr x
  | x :: y :: rest => pyRepr x ++ ", " ++ pyReprItems (y :: rest)

def pyReprKvs : List (String × Json) → String
  | [] => ""
  | [(k, v)] => "\x27" ++ k ++ "\x27: " ++ pyRepr v
  | (k, v) :: p :: rest => "\x27" ++ k ++ "\x27: " ++ pyRepr v ++ ", " ++ pyReprKvs (p :: rest)
end

/-- Python `str` of a parsed-JSON value (strings print bare). -/
def pyStr (j : Json) : String :=
  match j with
  | .str s => s
  | _ => pyRepr j

/-! ### Data model: targets, outcome records, transport -/

/-- A validation target as built by the spreadsheet readers. -/
structure DTarget where
  domainName : String
  validationScope : String
deriving DecidableEq

/-- The `Status Code` cell: an integer HTTP code or the literal `"Exception"`. -/
inductive StatusV where
  | code (n : Int)
  | exnMark
deriving DecidableEq

/-- One row of the result spreadsheet; `none` models an absent dict key. -/
structure OutcomeRec where
  domain : String
  scope : String
  status : StatusV
  result : String
  errorTitle : Option Json := none
  errorDetail : Option Json := none
  details : Option Json := none

/-- One HTTP exchange as the scripts observe it: either the call itself raised,
or a status code plus the result of `response.json()` (which may raise) and
`response.text`. -/
inductive HttpResp where
  | httpExn (msg : String)
  | http (code : Int) (body : Except String Json) (text : String)

/-- The transport oracle: response to the `n`-th request, given the batch the
request carries. -/
def Transport := Nat → List DTarget → HttpResp

/-- Identity of a target: the (domainName, validationScope) pair. -/
def targetId (t : DTarget) : String × String := (t.domainName, t.validationScope)

/-- Identity covered by an outcome record. -/
def recTargetId (r : OutcomeRec) : String × String := (r.domain, r.scope)

/-! ### `akamai_dom_delete.delete_domains` -/

/-- Record for the whole-batch exception handler (outer `except`). -/
def exnRecD (msg : String) (d : DTarget) : OutcomeRec :=
  { domain := d.domainName, scope := d.validationScope, status := .exnMark,
    result := "Exception", errorDetail := some (.str msg) }

/-- Record for the 200/204 success branch. -/
def successRecD (codeN : Int) (d : DTarget) : OutcomeRec :=
  { domain := d.domainName, scope := d.validationScope, status := .code codeN,
    result := "Success", details := some (.str "Deleted successfully") }

/-- Record for the 207 branch (both JSON and raw-text subcases). -/
def multiRecD (codeN : Int) (detailText : String) (d : DTarget) : OutcomeRec :=
  { domain := d.domainName, scope := d.validationScope, status := .code codeN,
    result := "Multi-Status", details := some (.str detailText) }

/-- Record for unhandled status codes. -/
def errorRecD (codeN : Int) (text : String) (d : DTarget) : OutcomeRec :=
  { domain := d.domainName, scope := d.validationScope, status := .code codeN,
    result := "Error", details := some (.str text) }

/-- Record for a 400 whose fault could not be localized. -/
def failAllRecD (codeN : Int) (title detail : Json) (d : DTarget) : OutcomeRec :=
  { domain := d.domainName, scope := d.validationScope, status := .code codeN,
    result := "Failed", errorTitle := some title, errorDetail := some detail }

/-- Record for a member cited by index in a 400 error body. -/
def citedRecD (codeN : Int) (detail : Json) (d : DTarget) : OutcomeRec :=
  { domain := d.domainName, scope := d.validationScope, status := .code codeN,
    result := "Failed", errorTitle := some (.str "Invalid Request"),
    errorDetail := some detail }

/-- Record for the 400-parsing crash fallback. -/
def crashRecD (codeN : Int) (msg : String) (d : DTarget) : OutcomeRec :=
  { domain := d.domainName, scope := d.validationScope, status := .code codeN,
    result := "Failed",
    errorDetail := some (.str ("Batch failed and retry logic crashed: " ++ msg)) }

/-- `field.split('[')[1].split(']')[0]` fed to `int(...)`; `none` models the
inner bare `except: pass`. -/
def extractIdx (f : String) : Option Int :=
  pyInt? ⟨((splitOnChar ']' ((splitOnChar '[' f.data).getD 1 [])).getD 0 [])⟩

/-- The `bad_indices` loop: for each error entry take `err.get('field','')`
(raising on a non-dict entry), require a string (Python would raise at
`.startswith` otherwise), and keep indices of `domains[...]`-shaped fields. -/
def collectBadIdx : List Json → Except String (List Int)
  | [] => .ok []
  | err :: rest =>
    match pyGetE err "field" (.str "") with
    | .error e => .error e
    | .ok (.str f) =>
      match collectBadIdx rest with
      | .error e => .error e
      | .ok tail =>
        if sStartsWith f "domains[" && strContains f "]" then
          match extractIdx f with
          | some i => .ok (i :: tail)
          | none => .ok tail
        else .ok tail
    | .ok _ => .error "AttributeError: startswith on non-string"

/-- The per-index detail search of the delete flow: first entry whose field
contains the substring `domains[i]`, else the top-level detail. -/
def findDetailD (i : Int) : List Json → Json → Except String Json
  | [], det => .ok det
  | err :: rest, det =>
    match pyGetE err "field" (.str "") with
    | .error e => .error e
    | .ok fj =>
      match pyInJ ("domains[" ++ intToStr i ++ "]") fj with
      | .error e => .error e
      | .ok b => if b then pyGetE err "detail" .null else findDetailD i rest det

/-- The `for i, d in enumerate(domains_batch)` split into cited (Failed
records) and uncited (retry batch) members; an error carries the records
already appended when the exception fired. -/
def citedLoopD (errs : List Json) (topDetail : Json) (bad : List Int) :
    Nat → List DTarget → Except (List OutcomeRec × String) (List OutcomeRec × List DTarget)
  | _, [] => .ok ([], [])
  | i, d :: rest =>
    if (i : Int) ∈ bad then
      match findDetailD (i : Int) errs topDetail with
      | .error e => .error ([], e)
      | .ok det =>
        match citedLoopD errs topDetail bad (i + 1) rest with
        | .error (p, e) => .error (citedRecD 400 det d :: p, e)
        | .ok (rs, retry) => .ok (citedRecD 400 det d :: rs, retry)
    else
      match citedLoopD errs topDetail bad (i + 1) rest with
      | .error (p, e) => .error (p, e)
      | .ok (rs, retry) => .ok (rs, d :: retry)

/-- Outcome of the 400-handling logic of the delete flow, before the
recursive resubmission. -/
inductive H400D where
  | failAll (title detail : Json)
  | split (cited : List OutcomeRec) (retry : List DTarget)
  | crashed (pendingRecs : List OutcomeRec) (msg : String)

/-- The `status_code == 400` branch of `delete_domains` up to (not including)
the recursive call: parse the body, extract cited indices, split the batch. -/
def parse400D (body : Except String Json) (batch : List DTarget) : H400D :=
  match body with
  | .error e => .crashed [] e
  | .ok errorData =>
    match pyGetE errorData "errors" (.arr []) with
    | .error e => .crashed [] e
    | .ok errsJ =>
      match pyIter errsJ with
      | .error e => .crashed [] e
      | .ok errsList =>
        match collectBadIdx errsList with
        | .error e => .crashed [] e
        | .ok bad =>
          if bad.isEmpty then
            .failAll (pyGetO errorData "title" .null) (pyGetO errorData "detail" .null)
          else
            match citedLoopD errsList (pyGetO errorData "detail" .null) bad 0 batch with
            | .error (p, e) => .crashed p e
            | .ok (rs, retry) => .split rs retry

/-- The crash fallback of the delete flow: append a Failed record per target
unless a record with the same `Domain` cell is already present. -/
def dedupCrashD (codeN : Int) (msg : String) : List OutcomeRec → List DTarget → List OutcomeRec
  | acc, [] => acc
  | acc, d :: rest =>
    if acc.any (fun r => r.domain = d.domainName) then dedupCrashD codeN msg acc rest
    else dedupCrashD codeN msg (acc ++ [crashRecD codeN msg d]) rest

/-- `delete_domains`: one DELETE per invocation, 400 bisection with recursive
resubmission.  `fuel` bounds the recursion depth (`none` = still recursing);
`tick` numbers the HTTP requests; the returned `Nat` is the next tick. -/
def deleteDomains (T : Transport) : Nat → Nat → List DTarget → Option (List OutcomeRec × Nat)
  | 0, _, _ => none
  | fuel + 1, tick, batch =>
    match T tick batch with
    | .httpExn msg => some (batch.map (exnRecD msg), tick + 1)
    | .http codeN body text =>
      if codeN = 400 then
        match parse400D body batch with
        | .failAll title detail => some (batch.map (failAllRecD codeN title detail), tick + 1)
        | .split cited retry =>
          if retry.isEmpty then some (cited, tick + 1)
          else
            match deleteDomains T fuel (tick + 1) retry with
            | none => none
            | some (rs, t2) => some (cited ++ rs, t2)
        | .crashed p msg => some (dedupCrashD codeN msg p batch, tick + 1)
      else if codeN = 200 ∨ codeN = 204 then
        some (batch.map (successRecD codeN), tick + 1)
      else if codeN = 207 then
        match body with
        | .ok data => some (batch.map (multiRecD codeN (pyStr data)), tick + 1)
        | .error _ => some (batch.map (multiRecD codeN text), tick + 1)
      else
        some (batch.map (errorRecD codeN text), tick + 1)

/-! ### `akamai_dom_validate.bulk_submit_validation` -/

/-- Record for the whole-batch exception handler of the validate flow. -/
def exnRecV (msg : String) (d : DTarget) : OutcomeRec :=
  { domain := d.domainName, scope := d.validationScope, status := .exnMark,
    result := "Exception", errorDetail := some (.str msg) }

/-- Record for unhandled status codes of the validate flow. -/
def errorRecV (codeN : Int) (text : String) (d : DTarget) : OutcomeRec :=
  { domain := d.domainName, scope := d.validationScope, status := .code codeN,
    result := "Error", details := some (.str text) }

/-- Record for a 400 whose fault could not be localized (validate flow): also
carries a `Details` message built from `error_data.get('detail', 'Unknown Error')`. -/
def failAllRecV (codeN : Int) (title detail dmsg : Json) (d : DTarget) : OutcomeRec :=
  { domain := d.domainName, scope := d.validationScope, status := .code codeN,
    result := "Failed", errorTitle := some title, errorDetail := some detail,
    details := some (.str ("Batch Error: " ++ pyStr dmsg)) }

/-- Record for a cited member (validate flow). -/
def citedRecV (codeN : Int) (title detail : Json) (d : DTarget) : OutcomeRec :=
  { domain := d.domainName, scope := d.validationScope, status := .code codeN,
    result := "Failed", errorTitle := some title, errorDetail := some detail }

/-- Record for the 400-parsing crash fallback (validate flow). -/
def crashRecV (codeN : Int) (msg : String) (d : DTarget) : OutcomeRec :=
  { domain := d.domainName, scope := d.validationScope, status := .code codeN,
    result := "Failed",
    errorDetail := some (.str ("Exception during retry logic: " ++ msg)) }

/-- Record for the 200/202 branch with a per-target status from the response. -/
def submittedRecV (codeN : Int) (statusJ : Json) (d : DTarget) : OutcomeRec :=
  { domain := d.domainName, scope := d.validationScope, status := .code codeN,
    result := "Submitted", details := some (.str ("Status: " ++ pyStr statusJ)),
    errorTitle := some (.str ""), errorDetail := some (.str "") }

/-- Record for the 200/202 branch when parsing the response body raised. -/
def parseFailRecV (codeN : Int) (d : DTarget) : OutcomeRec :=
  { domain := d.domainName, scope := d.validationScope, status := .code codeN,
    result := "Submitted",
    details := some (.str "Request accepted (Response parsing failed)"),
    errorTitle := some (.str ""), errorDetail := some (.str "") }

/-- Per-index title/detail search of the validate flow: first entry whose
field contains `domains[i]`, with `"Invalid Request"` as both defaults. -/
def findTitleDetailV (i : Int) : List Json → Except String (Json × Json)
  | [] => .ok (.str "Invalid Request", .str "Invalid Request")
  | err :: rest =>
    match pyGetE err "field" (.str "") with
    | .error e => .error e
    | .ok fj =>
      match pyInJ ("domains[" ++ intToStr i ++ "]") fj with
      | .error e => .error e
      | .ok b =>
        if b then
          match pyGetE err "title" (.str "Invalid Request") with
          | .error e => .error e
          | .ok t =>
            match pyGetE err "detail" (.str "Invalid Request") with
            | .error e => .error e
            | .ok dt => .ok (t, dt)
        else findTitleDetailV i rest

/-- The enumerate split of the validate flow. -/
def citedLoopV (errs : List Json) (bad : List Int) :
    Nat → List DTarget → Except (List OutcomeRec × String) (List OutcomeRec × List DTarget)
  | _, [] => .ok ([], [])
  | i, d :: rest =>
    if (i : Int) ∈ bad then
      match findTitleDetailV (i : Int) errs with
      | .error e => .error ([], e)
      | .ok (t, dt) =>
        match citedLoopV errs bad (i + 1) rest with
        | .error (p, e) => .error (citedRecV 400 t dt d :: p, e)
        | .ok (rs, retry) => .ok (citedRecV 400 t dt d :: rs, retry)
    else
      match citedLoopV errs bad (i + 1) rest with
      | .error (p, e) => .error (p, e)
      | .ok (rs, retry) => .ok (rs, d :: retry)

/-- Outcome of the 400-handling logic of the validate flow. -/
inductive H400V where
  | failAll (title detail dmsg : Json)
  | split (cited : List OutcomeRec) (retry : List DTarget)
  | crashed (pendingRecs : List OutcomeRec) (msg : String)

/-- The `status_code == 400` branch of `bulk_submit_validation` up to the
recursive call. -/
def parse400V (body : Except String Json) (batch : List DTarget) : H400V :=
  match body with
  | .error e => .crashed [] e
  | .ok errorData =>
    match pyGetE errorData "errors" (.arr []) with
    | .error e => .crashed [] e
    | .ok errsJ =>
      match pyIter errsJ with
      | .error e => .crashed [] e
      | .ok errsList =>
        match collectBadIdx errsList with
        | .error e => .crashed [] e
        | .ok bad =>
          if bad.isEmpty then
            .failAll (pyGetO errorData "title" .null) (pyGetO errorData "detail" .null)
              (pyGetO errorData "detail" (.str "Unknown Error"))
          else
            match citedLoopV errsList bad 0 batch with
            | .error (p, e) => .crashed p e
            | .ok (rs, retry) => .split rs retry

/-- The `status_map`: tuple-keyed entries (last assignment wins) and
name-keyed entries (first assignment wins, guarded by `not in`). -/
def insertPairMap (m : List ((Json × Json) × Json)) (k : Json × Json) (v : Json) :
    List ((Json × Json) × Json) :=
  if m.any (fun p => pyEq p.1.1 k.1 && pyEq p.1.2 k.2) then
    m.map (fun p => if pyEq p.1.1 k.1 && pyEq p.1.2 k.2 then (p.1, v) else p)
  else m ++ [(k, v)]

def lookupPairMap (m : List ((Json × Json) × Json)) (k : Json × Json) : Option Json :=
  (m.find? (fun p => pyEq p.1.1 k.1 && pyEq p.1.2 k.2)).map (fun p => p.2)

def lookupNameMap (m : List (Json × Json)) (k : Json) : Option Json :=
  (m.find? (fun p => pyEq p.1 k)).map (fun p => p.2)

/-- The `status_map` construction loop over the response's `domains` list;
raises on non-dict entries and on unhashable keys. -/
def buildStatusMaps : List ((Json × Json) × Json) → List (Json × Json) → List Json →
    Except String (List ((Json × Json) × Json) × List (Json × Json))
  | pm, nm, [] => .ok (pm, nm)
  | pm, nm, rd :: rest =>
    match pyGetE rd "domainName" .null with
    | .error e => .error e
    | .ok nameJ =>
      match pyGetE rd "validationScope" .null with
      | .error e => .error e
      | .ok scopeJ =>
        match pyGetE rd "domainStatus" (.str "Submitted") with
        | .error e => .error e
        | .ok statusJ =>
          if pyTruthy nameJ then
            match
              (if pyTruthy scopeJ then
                 if hashableJ nameJ && hashableJ scopeJ then
                   Except.ok (insertPairMap pm (nameJ, scopeJ) statusJ)
                 else Except.error "TypeError: unhashable type"
               else Except.ok pm : Except String (List ((Json × Json) × Json))) with
            | .error e => .error e
            | .ok pm2 =>
              if hashableJ nameJ then
                match lookupNameMap nm nameJ with
                | some _ => buildStatusMaps pm2 nm rest
                | none => buildStatusMaps pm2 (nm ++ [(nameJ, statusJ)]) rest
              else .error "TypeError: unhashable type"
          else buildStatusMaps pm nm rest

/-- The per-target status lookup: exact (name, scope) match first, falling
back (also when the matched status is falsy) to the name-only entry, with
`"Submitted"` as the final default. -/
def lookupStatusFor (pm : List ((Json × Json) × Json)) (nm : List (Json × Json))
    (d : DTarget) : Json :=
  match lookupPairMap pm (.str d.domainName, .str d.validationScope) with
  | some v =>
    if pyTruthy v then v
    else (lookupNameMap nm (.str d.domainName)).getD (.str "Submitted")
  | none => (lookupNameMap nm (.str d.domainName)).getD (.str "Submitted")

/-- The 200/202 branch of `bulk_submit_validation`: build the status map from
the body and emit one Submitted record per target; any exception while parsing
falls back to generic Submitted records. -/
def successRecsV (codeN : Int) (body : Except String Json) (batch : List DTarget) :
    List OutcomeRec :=
  match body with
  | .error _ => batch.map (parseFailRecV codeN)
  | .ok respData =>
    match pyGetE respData "domains" (.arr []) with
    | .error _ => batch.map (parseFailRecV codeN)
    | .ok domsJ =>
      match pyIter domsJ with
      | .error _ => batch.map (parseFailRecV codeN)
      | .ok rds =>
        match buildStatusMaps [] [] rds with
        | .error _ => batch.map (parseFailRecV codeN)
        | .ok (pm, nm) =>
          batch.map (fun d => submittedRecV codeN (lookupStatusFor pm nm d) d)

/-- `bulk_submit_validation`: one POST per invocation, 400 bisection with
recursive resubmission; 200/202 are the submit-success codes. -/
def bulkSubmitValidation (T : Transport) :
    Nat → Nat → List DTarget → Option (List OutcomeRec × Nat)
  | 0, _, _ => none
  | fuel + 1, tick, batch =>
    match T tick batch with
    | .httpExn msg => some (batch.map (exnRecV msg), tick + 1)
    | .http codeN body text =>
      if codeN = 400 then
        match parse400V body batch with
        | .failAll title detail dmsg =>
          some (batch.map (failAllRecV codeN title detail dmsg), tick + 1)
        | .split cited retry =>
          if retry.isEmpty then some (cited, tick + 1)
          else
            match bulkSubmitValidation T fuel (tick + 1) retry with
            | none => none
            | some (rs, t2) => some (cited ++ rs, t2)
        | .crashed p msg => some (p ++ batch.map (crashRecV codeN msg), tick + 1)
      else if codeN = 200 ∨ codeN = 202 then
        some (successRecsV codeN body batch, tick + 1)
      else
        some (batch.map (errorRecV codeN text), tick + 1)

/-! ### `akamai_dom_script`: create flow and GET-detail fallback -/

def isObjJ : Json → Bool
  | .obj _ => true
  | _ => false

/-- Python `k in d` for a dict. -/
def hasKeyJ (j : Json) (k : String) : Bool :=
  match j with
  | .obj kvs => kvs.any (fun p => p.1 = k)
  | _ => false

/-- Body of `get_domain_details` after a 200: status check, then the
`validationChallenge.txtRecord.value` probe. -/
def getDetailsCore (data : Json) : Except String (Json × Json) :=
  match pyGetE data "status" .null with
  | .error e => .error e
  | .ok st =>
    if st.isStrEq "VALIDATED" then .ok (.str "Already Validated", .str "Already Validated")
    else
      match pyGetE data "domainStatus" .null with
      | .error e => .error e
      | .ok ds =>
        if ds.isStrEq "VALIDATED" then .ok (.str "Already Validated", .str "Already Validated")
        else
          match pyGetE data "validationChallenge" (.obj []) with
          | .error e => .error e
          | .ok challenge =>
            if pyTruthy challenge then
              match pyGetE challenge "txtRecord" (.obj []) with
              | .error e => .error e
              | .ok txt =>
                match pyGetE txt "value" .null with
                | .error e => .error e
                | .ok v =>
                  if pyTruthy v then
                    match pyGetE txt "name" .null with
                    | .error e => .error e
                    | .ok n => .ok (n, v)
                  else .ok (.str "Token not found", .str "Token not found")
            else .ok (.str "Token not found", .str "Token not found")

/-- `get_domain_details`: one GET, returning the `(name, token)` pair; every
failure mode is folded into the pair, never raised. -/
def getDomainDetails (getR : HttpResp) : Json × Json :=
  match getR with
  | .httpExn e => (.str ("Exception GET: " ++ e), .str ("Exception GET: " ++ e))
  | .http codeN body _ =>
    if codeN = 200 then
      match body with
      | .error e => (.str ("Exception GET: " ++ e), .str ("Exception GET: " ++ e))
      | .ok data =>
        match getDetailsCore data with
        | .error e => (.str ("Exception GET: " ++ e), .str ("Exception GET: " ++ e))
        | .ok p => p
    else (.str ("Error GET: " ++ intToStr codeN), .str ("Error GET: " ++ intToStr codeN))

/-- `check_item` of `create_domain_validation.find_token_in_data`. -/
def checkItem (dom : String) (item : Json) : Except String (Json × Json) :=
  if !isObjJ item then .ok (.null, .null)
  else if (pyGetO item "domainName" .null).isStrEq dom then
    if (pyGetO item "status" .null).isStrEq "VALIDATED" ||
        (pyGetO item "domainStatus" .null).isStrEq "VALIDATED" then
      .ok (.str "Already Validated", .str "Already Validated")
    else
      match
        (if pyTruthy (pyGetO item "validationChallenge" (.obj [])) then
           match pyGetE (pyGetO item "validationChallenge" (.obj [])) "txtRecord" (.obj []) with
           | .error e => .error e
           | .ok txt =>
             match pyGetE txt "value" .null with
             | .error e => .error e
             | .ok v =>
               if pyTruthy v then
                 match pyGetE txt "name" .null with
                 | .error e => .error e
                 | .ok n => .ok (some (n, v))
               else .ok none
         else .ok none : Except String (Option (Json × Json))) with
      | .error e => .error e
      | .ok (some p) => .ok p
      | .ok none =>
        if (pyGetO item "status" .null).isStrEq "Internal Server Error" then
          .ok (.str ("Error: " ++ pyStr (pyGetO item "detail" (.str "Unknown Error"))),
               .str ("Error: " ++ pyStr (pyGetO item "detail" (.str "Unknown Error"))))
        else
          match pyInJ "Domain already exists" (pyGetO item "detail" (.str "")) with
          | .error e => .error e
          | .ok b =>
            if b then .ok (.str "Domain already exists", .str "Domain already exists")
            else .ok (.null, .null)
  else .ok (.null, .null)

/-- Scan a list of candidate items, returning the first truthy token. -/
def scanItems (dom : String) : List Json → Except String (Json × Json)
  | [] => .ok (.null, .null)
  | it :: rest =>
    match checkItem dom it with
    | .error e => .error e
    | .ok (n, t) => if pyTruthy t then .ok (n, t) else scanItems dom rest

/-- `find_token_in_data`: probe `successes`, then `errors`, then a bare list,
then the object itself. -/
def findTokenInData (dom : String) (data : Json) : Except String (Json × Json) :=
  match
    (if isObjJ data && hasKeyJ data "successes" then
       match pyIter (pyGetO data "successes" .null) with
       | .error e => .error e
       | .ok items => scanItems dom items
     else .ok (.null, .null) : Except String (Json × Json)) with
  | .error e => .error e
  | .ok (n1, t1) =>
    if pyTruthy t1 then .ok (n1, t1)
    else
      match
        (if isObjJ data && hasKeyJ data "errors" then
           match pyIter (pyGetO data "errors" .null) with
           | .error e => .error e
           | .ok items => scanItems dom items
         else .ok (.null, .null) : Except String (Json × Json)) with
      | .error e => .error e
      | .ok (n2, t2) =>
        if pyTruthy t2 then .ok (n2, t2)
        else
          match (match data with
                 | .arr xs => scanItems dom xs
                 | _ => .ok (.null, .null)) with
          | .error e => .error e
          | .ok (n3, t3) =>
            if pyTruthy t3 then .ok (n3, t3)
            else
              match checkItem dom data with
              | .error e => .error e
              | .ok (n4, t4) => if pyTruthy t4 then .ok (n4, t4) else .ok (.null, .null)

/-- `create_domain_validation`: one POST; 200/201/207 probe the body for a
token, a `Domain already exists` marker or 409 falls back to exactly one GET.
The third component counts the GET requests issued (0 or 1). -/
def createDomainValidation (postR getR : HttpResp) (dom : String) : Json × Json × Nat :=
  match postR with
  | .httpExn e => (.str ("Exception: " ++ e), .str ("Exception: " ++ e), 0)
  | .http codeN body _ =>
    if codeN = 200 ∨ codeN = 201 ∨ codeN = 207 then
      match body with
      | .error e => (.str ("Exception: " ++ e), .str ("Exception: " ++ e), 0)
      | .ok data =>
        match findTokenInData dom data with
        | .error e => (.str ("Exception: " ++ e), .str ("Exception: " ++ e), 0)
        | .ok (n, t) =>
          if pyTruthy t then
            if strContains (pyStr n) "Domain already exists" then
              ((getDomainDetails getR).1, (getDomainDetails getR).2, 1)
            else (n, t, 0)
          else (.str "Token not found", .str "Token not found", 0)
    else if codeN = 409 then ((getDomainDetails getR).1, (getDomainDetails getR).2, 1)
    else (.str ("Error: " ++ intToStr codeN), .str ("Error: " ++ intToStr codeN), 0)

/-! ### Spreadsheet readers -/

/-- A spreadsheet: column headers plus rows of cells; `none` is a NaN cell. -/
structure Sheet where
  cols : List String
  rows : List (List (Option String))

def domainColNames : List String := ["domain", "hostname", "domainname", "domain name"]

def scopeColNames : List String := ["validationscope", "scope", "validation scope"]

def findColIdxAux (names : List String) : Nat → List String → Option Nat
  | _, [] => none
  | i, c :: rest => if names.contains (pyLower c) then some i else findColIdxAux names (i + 1) rest

/-- First column whose lower-cased (already stripped) header is in `names`. -/
def findColIdx (cols names : List String) : Option Nat := findColIdxAux names 0 cols

/-- One row of `read_delete_targets`: skip blank domains, lower/strip the
domain, upper/strip the scope with `"DOMAIN"` for a NaN scope cell. -/
def rowToTargetDel (di si : Nat) (row : List (Option String)) : Option DTarget :=
  match row.getD di none with
  | none => none
  | some dstr =>
    if pyStrip dstr = "" then none
    else
      some { domainName := pyLower (pyStrip dstr),
             validationScope :=
               match row.getD si none with
               | none => "DOMAIN"
               | some sstr => pyUpper (pyStrip sstr) }

/-- `read_delete_targets`: requires a scope-like column, exiting otherwise
(`.error` models `sys.exit(1)`). -/
def readDeleteTargets (s : Sheet) : Except String (List DTarget) :=
  let cols := s.cols.map pyStrip
  match
    (match findColIdx cols domainColNames with
     | some i => some i
     | none => if cols.isEmpty then none else some 0) with
  | none => .error "Error reading Excel file"
  | some di =>
    match findColIdx cols scopeColNames with
    | none => .error "validationScope column required but not found"
    | some si => .ok (s.rows.filterMap (rowToTargetDel di si))

/-- One row of the validate flow's `read_domains`: when no scope column
exists the literal `"DOMAIN"` feeds the strip/upper pipeline. -/
def rowToTargetVal (di : Nat) (siOpt : Option Nat) (row : List (Option String)) : Option DTarget :=
  match row.getD di none with
  | none => none
  | some dstr =>
    if pyStrip dstr = "" then none
    else
      some { domainName := pyLower (pyStrip dstr),
             validationScope :=
               match siOpt with
               | none => pyUpper (pyStrip "DOMAIN")
               | some si =>
                 match row.getD si none with
                 | none => "DOMAIN"
                 | some sstr => pyUpper (pyStrip sstr) }

/-- The validate flow's `read_domains`: the scope column is optional. -/
def readDomainsV (s : Sheet) : Except String (List DTarget) :=
  let cols := s.cols.map pyStrip
  match
    (match findColIdx cols domainColNames with
     | some i => some i
     | none => if cols.isEmpty then none else some 0) with
  | none => .error "Error reading Excel file"
  | some di => .ok (s.rows.filterMap (rowToTargetVal di (findColIdx cols scopeColNames)))

/-! ### Batching and the limit (validate flow `process_domains`) -/

def chunkedAux {α : Type} (bs : Nat) : Nat → List α → List (List α)
  | 0, _ => []
  | _ + 1, [] => []
  | fuel + 1, l => l.take bs :: chunkedAux bs fuel (l.drop bs)

/-- `for i in range(0, total, batch_size): entries[i:i+batch_size]`. -/
def chunked {α : Type} (bs : Nat) (l : List α) : List (List α) :=
  chunkedAux bs l.length l

/-- `if limit > 0: domain_entries = domain_entries[:limit]`. -/
def limitEntries (limit : Nat) (entries : List DTarget) : List DTarget :=
  if limit > 0 then entries.take limit else entries

/-- The batches `process_domains` submits after applying the limit. -/
def processBatchesV (limit bs : Nat) (entries : List DTarget) : List (List DTarget) :=
  chunked bs (limitEntries limit entries)

/-! ### Spec-side auxiliary definitions -/

/-- The submitter never finishes, whatever fuel it is given. -/
def deleteDiverges (T : Transport) (batch : List DTarget) : Prop :=
  ∀ fuel tick, deleteDomains T fuel tick batch = none

/-- The validate submitter never finishes, whatever fuel it is given. -/
def validateDiverges (T : Transport) (batch : List DTarget) : Prop :=
  ∀ fuel tick, bulkSubmitValidation T fuel tick batch = none

def fieldOfErr (err : Json) : Option String :=
  match pyGetE err "field" (.str "") with
  | .ok (.str f) => some f
  | _ => none

/-- An error entry whose field contains the substring `domains[i]`. -/
def errFieldCites (i : Int) (err : Json) : Bool :=
  match fieldOfErr err with
  | some f => strContains f ("domains[" ++ intToStr i ++ "]")
  | none => false

/-- Modelled from the amended spec wording: the detail attributed to cited
index `i` in the delete flow is the detail of the first entry whose field
contains the substring `domains[i]`, else the top-level detail. -/
def specDetailRuleD (i : Int) (errs : List Json) (topDetail : Json) : Json :=
  match errs.find? (errFieldCites i) with
  | some e => pyGetO e "detail" .null
  | none => topDetail

/-- Modelled from the amended spec wording for the validate flow: title and
detail of the first entry whose field contains `domains[i]`, with the literal
`"Invalid Request"` as every fallback. -/
def specTitleDetailRuleV (i : Int) (errs : List Json) : Json × Json :=
  match errs.find? (errFieldCites i) with
  | some e => (pyGetO e "title" (.str "Invalid Request"),
               pyGetO e "detail" (.str "Invalid Request"))
  | none => (.str "Invalid Request", .str "Invalid Request")

/-- Positions of `batch` (numbered from `n`) cited by `bad`. -/
def citedOfBatch (bad : List Int) (n : Nat) (batch : List DTarget) : List (Nat × DTarget) :=
  (List.enumFrom n batch).filter (fun p => decide ((p.1 : Int) ∈ bad))

/-- The uncited members of `batch` (numbered from `n`), in order. -/
def uncitedOfBatch (bad : List Int) (n : Nat) (batch : List DTarget) : List DTarget :=
  ((List.enumFrom n batch).filter (fun p => !decide ((p.1 : Int) ∈ bad))).map (fun p => p.2)

/-- A well-formed error entry: a dict whose `field` is a string.  Parsing the
`bad_indices` loop succeeds exactly on lists of such entries. -/
def wellErr (err : Json) : Prop :=
  ∃ f : String, pyGetE err "field" (.str "") = .ok (.str f)

/-! ### Parsing lemmas -/

theorem pyGetE_ok_obj {j : Json} {k : String} {d v : Json}
    (h : pyGetE j k d = .ok v) : ∃ kvs, j = .obj kvs := by
  cases j <;> simp [pyGetE] at h <;> exact ⟨_, rfl⟩

theorem pyGetE_obj_ok {kvs : List (String × Json)} {k : String} {d : Json} :
    pyGetE (.obj kvs) k d = .ok (pyGetO (.obj kvs) k d) := by
  simp [pyGetE, pyGetO]

theorem wellErr_get_ok {err : Json} (h : wellErr err) (k : String) (d : Json) :
    pyGetE err k d = .ok (pyGetO err k d) := by
  obtain ⟨f, hf⟩ := h
  obtain ⟨kvs, rfl⟩ := pyGetE_ok_obj hf
  exact pyGetE_obj_ok

theorem collectBadIdx_cons {e : Json} {rest : List Json} {bad : List Int}
    (h : collectBadIdx (e :: rest) = .ok bad) :
    wellErr e ∧ ∃ bad2, collectBadIdx rest = .ok bad2 := by
  cases hg : pyGetE e "field" (.str "") with
  | error msg => simp [collectBadIdx, hg] at h
  | ok fj =>
    cases fj with
    | str f =>
      cases hr : collectBadIdx rest with
      | error msg => simp [collectBadIdx, hg, hr] at h
      | ok tail => exact ⟨⟨f, hg⟩, tail, rfl⟩
    | null => simp [collectBadIdx, hg] at h
    | bool b => simp [collectBadIdx, hg] at h
    | num n => simp [collectBadIdx, hg] at h
    | arr xs => simp [collectBadIdx, hg] at h
    | obj kvs => simp [collectBadIdx, hg] at h

theorem collectBadIdx_wellErr {errs : List Json} {bad : List Int}
    (h : collectBadIdx errs = .ok bad) : ∀ err ∈ errs, wellErr err := by
  induction errs generalizing bad with
  | nil => intro err he; cases he
  | cons e rest ih =>
    intro err he
    rw [List.mem_cons] at he
    obtain ⟨he1, bad2, he2⟩ := collectBadIdx_cons h
    rcases he with rfl | he
    · exact he1
    · exact ih he2 err he

theorem fieldOfErr_of_wellErr {err : Json} {f : String}
    (h : pyGetE err "field" (.str "") = .ok (.str f)) : fieldOfErr err = some f := by
  simp [fieldOfErr, h]

/-- The delete-flow detail search never raises on well-formed entries, and
computes exactly the spec-side first-substring-match rule. -/
theorem findDetailD_spec {errs : List Json} (hw : ∀ e ∈ errs, wellErr e)
    (i : Int) (td : Json) :
    findDetailD i errs td = .ok (specDetailRuleD i errs td) := by
  induction errs with
  | nil => simp [findDetailD, specDetailRuleD]
  | cons e rest ih =>
    have he : wellErr e := hw e (List.mem_cons_self e rest)
    obtain ⟨f, hf⟩ := he
    have hfe : fieldOfErr e = some f := fieldOfErr_of_wellErr hf
    rw [findDetailD, hf]
    have hrest : ∀ x ∈ rest, wellErr x := fun x hx => hw x (List.mem_cons_of_mem e hx)
    by_cases hb : strContains f ("domains[" ++ intToStr i ++ "]") = true
    · obtain ⟨kvs, rfl⟩ := pyGetE_ok_obj hf
      simp [pyInJ, hb, specDetailRuleD, List.find?, errFieldCites, hfe, pyGetE, pyGetO]
    · have hb2 : strContains f ("domains[" ++ intToStr i ++ "]") = false :=
        Bool.not_eq_true _ ▸ (by simpa using hb)
      simp only [pyInJ, hb2]
      rw [ih hrest]
      simp [specDetailRuleD, List.find?, errFieldCites, hfe, hb2]

/-- The validate-flow title/detail search never raises on well-formed entries,
and computes exactly the spec-side first-substring-match rule with
`"Invalid Request"` fallbacks. -/
theorem findTitleDetailV_spec {errs : List Json} (hw : ∀ e ∈ errs, wellErr e)
    (i : Int) :
    findTitleDetailV i errs = .ok (specTitleDetailRuleV i errs) := by
  induction errs with
  | nil => simp [findTitleDetailV, specTitleDetailRuleV]
  | cons e rest ih =>
    have he : wellErr e := hw e (List.mem_cons_self e rest)
    obtain ⟨f, hf⟩ := he
    have hfe : fieldOfErr e = some f := fieldOfErr_of_wellErr hf
    rw [findTitleDetailV, hf]
    have hrest : ∀ x ∈ rest, wellErr x := fun x hx => hw x (List.mem_cons_of_mem e hx)
    by_cases hb : strContains f ("domains[" ++ intToStr i ++ "]") = true
    · obtain ⟨kvs, rfl⟩ := pyGetE_ok_obj hf
      simp [pyInJ, hb, specTitleDetailRuleV, List.find?, errFieldCites, hfe, pyGetE, pyGetO]
    · have hb2 : strContains f ("domains[" ++ intToStr i ++ "]") = false :=
        Bool.not_eq_true _ ▸ (by simpa using hb)
      simp only [pyInJ, hb2]
      rw [ih hrest]
      simp [specTitleDetailRuleV, List.find?, errFieldCites, hfe, hb2]

/-! ### Structure of the cited/uncited split -/

theorem recTargetId_citedRecD (codeN : Int) (det : Json) (d : DTarget) :
    recTargetId (citedRecD codeN det d) = targetId d := rfl

theorem recTargetId_citedRecV (codeN : Int) (t dt : Json) (d : DTarget) :
    recTargetId (citedRecV codeN t dt d) = targetId d := rfl

theorem citedLoopD_perm {errs : List Json} {td : Json} {bad : List Int} :
    ∀ {n : Nat} {batch : List DTarget} {rs : List OutcomeRec} {retry : List DTarget},
    citedLoopD errs td bad n batch = .ok (rs, retry) →
    List.Perm (batch.map targetId) (rs.map recTargetId ++ retry.map targetId) := by
  intro n batch
  induction batch generalizing n with
  | nil =>
    intro rs retry h
    simp [citedLoopD] at h
    simp [h.1, h.2]
  | cons d rest ih =>
    intro rs retry h
    by_cases hm : (n : Int) ∈ bad
    · cases hd : findDetailD (n : Int) errs td with
      | error e => simp [citedLoopD, hm, hd] at h
      | ok det =>
        cases hrec : citedLoopD errs td bad (n + 1) rest with
        | error pe => simp [citedLoopD, hm, hd, hrec] at h
        | ok pr =>
          obtain ⟨rs2, retry2⟩ := pr
          simp [citedLoopD, hm, hd, hrec] at h
          obtain ⟨rfl, rfl⟩ := h
          simpa [recTargetId_citedRecD] using (ih hrec).cons (targetId d)
    · cases hrec : citedLoopD errs td bad (n + 1) rest with
      | error pe => simp [citedLoopD, hm, hrec] at h
      | ok pr =>
        obtain ⟨rs2, retry2⟩ := pr
        simp [citedLoopD, hm, hrec] at h
        obtain ⟨rfl, rfl⟩ := h
        exact (((ih hrec).cons (targetId d)).trans List.perm_middle.symm)

theorem citedLoopV_perm {errs : List Json} {bad : List Int} :
    ∀ {n : Nat} {batch : List DTarget} {rs : List OutcomeRec} {retry : List DTarget},
    citedLoopV errs bad n batch = .ok (rs, retry) →
    List.Perm (batch.map targetId) (rs.map recTargetId ++ retry.map targetId) := by
  intro n batch
  induction batch generalizing n with
  | nil =>
    intro rs retry h
    simp [citedLoopV] at h
    simp [h.1, h.2]
  | cons d rest ih =>
    intro rs retry h
    by_cases hm : (n : Int) ∈ bad
    · cases hd : findTitleDetailV (n : Int) errs with
      | error e => simp [citedLoopV, hm, hd] at h
      | ok tdp =>
        obtain ⟨t, dt⟩ := tdp
        cases hrec : citedLoopV errs bad (n + 1) rest with
        | error pe => simp [citedLoopV, hm, hd, hrec] at h
        | ok pr =>
          obtain ⟨rs2, retry2⟩ := pr
          simp [citedLoopV, hm, hd, hrec] at h
          obtain ⟨rfl, rfl⟩ := h
          simpa [recTargetId_citedRecV] using (ih hrec).cons (targetId d)
    · cases hrec : citedLoopV errs bad (n + 1) rest with
      | error pe => simp [citedLoopV, hm, hrec] at h
      | ok pr =>
        obtain ⟨rs2, retry2⟩ := pr
        simp [citedLoopV, hm, hrec] at h
        obtain ⟨rfl, rfl⟩ := h
        exact (((ih hrec).cons (targetId d)).trans List.perm_middle.symm)

theorem citedLoopD_sublist {errs : List Json} {td : Json} {bad : List Int} :
    ∀ {n : Nat} {batch : List DTarget} {rs : List OutcomeRec} {retry : List DTarget},
    citedLoopD errs td bad n batch = .ok (rs, retry) → retry.Sublist batch := by
  intro n batch
  induction batch generalizing n with
  | nil =>
    intro rs retry h
    simp [citedLoopD] at h
    simp [h.2]
  | cons d rest ih =>
    intro rs retry h
    by_cases hm : (n : Int) ∈ bad
    · cases hd : findDetailD (n : Int) errs td with
      | error e => simp [citedLoopD, hm, hd] at h
      | ok det =>
        cases hrec : citedLoopD errs td bad (n + 1) rest with
        | error pe => simp [citedLoopD, hm, hd, hrec] at h
        | ok pr =>
          obtain ⟨rs2, retry2⟩ := pr
          simp [citedLoopD, hm, hd, hrec] at h
          obtain ⟨rfl, rfl⟩ := h
          exact (ih hrec).cons d
    · cases hrec : citedLoopD errs td bad (n + 1) rest with
      | error pe => simp [citedLoopD, hm, hrec] at h
      | ok pr =>
        obtain ⟨rs2, retry2⟩ := pr
        simp [citedLoopD, hm, hrec] at h
        obtain ⟨rfl, rfl⟩ := h
        exact (ih hrec).cons₂ d

theorem citedLoopV_sublist {errs : List Json} {bad : List Int} :
    ∀ {n : Nat} {batch : List DTarget} {rs : List OutcomeRec} {retry : List DTarget},
    citedLoopV errs bad n batch = .ok (rs, retry) → retry.Sublist batch := by
  intro n batch
  induction batch generalizing n with
  | nil =>
    intro rs retry h
    simp [citedLoopV] at h
    simp [h.2]
  | cons d rest ih =>
    intro rs retry h
    by_cases hm : (n : Int) ∈ bad
    · cases hd : findTitleDetailV (n : Int) errs with
      | error e => simp [citedLoopV, hm, hd] at h
      | ok tdp =>
        obtain ⟨t, dt⟩ := tdp
        cases hrec : citedLoopV errs bad (n + 1) rest with
        | error pe => simp [citedLoopV, hm, hd, hrec] at h
        | ok pr =>
          obtain ⟨rs2, retry2⟩ := pr
          simp [citedLoopV, hm, hd, hrec] at h
          obtain ⟨rfl, rfl⟩ := h
          exact (ih hrec).cons d
    · cases hrec : citedLoopV errs bad (n + 1) rest with
      | error pe => simp [citedLoopV, hm, hrec] at h
      | ok pr =>
        obtain ⟨rs2, retry2⟩ := pr
        simp [citedLoopV, hm, hrec] at h
        obtain ⟨rfl, rfl⟩ := h
        exact (ih hrec).cons₂ d

theorem citedLoopD_len {errs : List Json} {td : Json} {bad : List Int} :
    ∀ {n : Nat} {batch : List DTarget} {rs : List OutcomeRec} {retry : List DTarget},
    citedLoopD errs td bad n batch = .ok (rs, retry) →
    rs.length + retry.length = batch.length := by
  intro n batch
  induction batch generalizing n with
  | nil =>
    intro rs retry h
    simp [citedLoopD] at h
    simp [h.1, h.2]
  | cons d rest ih =>
    intro rs retry h
    by_cases hm : (n : Int) ∈ bad
    · cases hd : findDetailD (n : Int) errs td with
      | error e => simp [citedLoopD, hm, hd] at h
      | ok det =>
        cases hrec : citedLoopD errs td bad (n + 1) rest with
        | error pe => simp [citedLoopD, hm, hd, hrec] at h
        | ok pr =>
          obtain ⟨rs2, retry2⟩ := pr
          simp [citedLoopD, hm, hd, hrec] at h
          obtain ⟨rfl, rfl⟩ := h
          have := ih hrec
          simp only [List.length_cons]
          omega
    · cases hrec : citedLoopD errs td bad (n + 1) rest with
      | error pe => simp [citedLoopD, hm, hrec] at h
      | ok pr =>
        obtain ⟨rs2, retry2⟩ := pr
        simp [citedLoopD, hm, hrec] at h
        obtain ⟨rfl, rfl⟩ := h
        have := ih hrec
        simp only [List.length_cons]
        omega

theorem citedLoopV_len {errs : List Json} {bad : List Int} :
    ∀ {n : Nat} {batch : List DTarget} {rs : List OutcomeRec} {retry : List DTarget},
    citedLoopV errs bad n batch = .ok (rs, retry) →
    rs.length + retry.length = batch.length := by
  intro n batch
  induction batch generalizing n with
  | nil =>
    intro rs retry h
    simp [citedLoopV] at h
    simp [h.1, h.2]
  | cons d rest ih =>
    intro rs retry h
    by_cases hm : (n : Int) ∈ bad
    · cases hd : findTitleDetailV (n : Int) errs with
      | error e => simp [citedLoopV, hm, hd] at h
      | ok tdp =>
        obtain ⟨t, dt⟩ := tdp
        cases hrec : citedLoopV errs bad (n + 1) rest with
        | error pe => simp [citedLoopV, hm, hd, hrec] at h
        | ok pr =>
          obtain ⟨rs2, retry2⟩ := pr
          simp [citedLoopV, hm, hd, hrec] at h
          obtain ⟨rfl, rfl⟩ := h
          have := ih hrec
          simp only [List.length_cons]
          omega
    · cases hrec : citedLoopV errs bad (n + 1) rest with
      | error pe => simp [citedLoopV, hm, hrec] at h
      | ok pr =>
        obtain ⟨rs2, retry2⟩ := pr
        simp [citedLoopV, hm, hrec] at h
        obtain ⟨rfl, rfl⟩ := h
        have := ih hrec
        simp only [List.length_cons]
        omega

theorem citedLoopD_shrink {errs : List Json} {td : Json} {bad : List Int} :
    ∀ {n : Nat} {batch : List DTarget} {rs : List OutcomeRec} {retry : List DTarget},
    citedLoopD errs td bad n batch = .ok (rs, retry) →
    (∃ k : Nat, k < batch.length ∧ ((n + k : Nat) : Int) ∈ bad) →
    retry.length < batch.length := by
  intro n batch
  induction batch generalizing n with
  | nil =>
    intro rs retry h hex
    obtain ⟨k, hk, _⟩ := hex
    simp at hk
  | cons d rest ih =>
    intro rs retry h hex
    by_cases hm : (n : Int) ∈ bad
    · cases hd : findDetailD (n : Int) errs td with
      | error e => simp [citedLoopD, hm, hd] at h
      | ok det =>
        cases hrec : citedLoopD errs td bad (n + 1) rest with
        | error pe => simp [citedLoopD, hm, hd, hrec] at h
        | ok pr =>
          obtain ⟨rs2, retry2⟩ := pr
          simp [citedLoopD, hm, hd, hrec] at h
          obtain ⟨rfl, rfl⟩ := h
          have hlen := citedLoopD_len hrec
          simp only [List.length_cons]
          omega
    · cases hrec : citedLoopD errs td bad (n + 1) rest with
      | error pe => simp [citedLoopD, hm, hrec] at h
      | ok pr =>
        obtain ⟨rs2, retry2⟩ := pr
        simp [citedLoopD, hm, hrec] at h
        obtain ⟨rfl, rfl⟩ := h
        obtain ⟨k, hk, hkb⟩ := hex
        cases k with
        | zero => simp at hkb; exact absurd hkb hm
        | succ k2 =>
          have hex2 : ∃ k : Nat, k < rest.length ∧ (((n + 1) + k : Nat) : Int) ∈ bad := by
            refine ⟨k2, by simpa [Nat.succ_lt_succ_iff] using hk, ?_⟩
            have : n + 1 + k2 = n + (k2 + 1) := by omega
            rw [this]
            exact hkb
          have := ih hrec hex2
          simp only [List.length_cons]
          omega

theorem citedLoopV_shrink {errs : List Json} {bad : List Int} :
    ∀ {n : Nat} {batch : List DTarget} {rs : List OutcomeRec} {retry : List DTarget},
    citedLoopV errs bad n batch = .ok (rs, retry) →
    (∃ k : Nat, k < batch.length ∧ ((n + k : Nat) : Int) ∈ bad) →
    retry.length < batch.length := by
  intro n batch
  induction batch generalizing n with
  | nil =>
    intro rs retry h hex
    obtain ⟨k, hk, _⟩ := hex
    simp at hk
  | cons d rest ih =>
    intro rs retry h hex
    by_cases hm : (n : Int) ∈ bad
    · cases hd : findTitleDetailV (n : Int) errs with
      | error e => simp [citedLoopV, hm, hd] at h
      | ok tdp =>
        obtain ⟨t, dt⟩ := tdp
        cases hrec : citedLoopV errs bad (n + 1) rest with
        | error pe => simp [citedLoopV, hm, hd, hrec] at h
        | ok pr =>
          obtain ⟨rs2, retry2⟩ := pr
          simp [citedLoopV, hm, hd, hrec] at h
          obtain ⟨rfl, rfl⟩ := h
          have hlen := citedLoopV_len hrec
          simp only [List.length_cons]
          omega
    · cases hrec : citedLoopV errs bad (n + 1) rest with
      | error pe => simp [citedLoopV, hm, hrec] at h
      | ok pr =>
        obtain ⟨rs2, retry2⟩ := pr
        simp [citedLoopV, hm, hrec] at h
        obtain ⟨rfl, rfl⟩ := h
        obtain ⟨k, hk, hkb⟩ := hex
        cases k with
        | zero => simp at hkb; exact absurd hkb hm
        | succ k2 =>
          have hex2 : ∃ k : Nat, k < rest.length ∧ (((n + 1) + k : Nat) : Int) ∈ bad := by
            refine ⟨k2, by simpa [Nat.succ_lt_succ_iff] using hk, ?_⟩
            have : n + 1 + k2 = n + (k2 + 1) := by omega
            rw [this]
            exact hkb
          have := ih hrec hex2
          simp only [List.length_cons]
          omega

theorem citedLoopD_results_failed {errs : List Json} {td : Json} {bad : List Int} :
    ∀ {n : Nat} {batch : List DTarget} {rs : List OutcomeRec} {retry : List DTarget},
    citedLoopD errs td bad n batch = .ok (rs, retry) →
    ∀ r ∈ rs, r.result = "Failed" := by
  intro n batch
  induction batch generalizing n with
  | nil =>
    intro rs retry h
    simp [citedLoopD] at h
    simp [h.1]
  | cons d rest ih =>
    intro rs retry h
    by_cases hm : (n : Int) ∈ bad
    · cases hd : findDetailD (n : Int) errs td with
      | error e => simp [citedLoopD, hm, hd] at h
      | ok det =>
        cases hrec : citedLoopD errs td bad (n + 1) rest with
        | error pe => simp [citedLoopD, hm, hd, hrec] at h
        | ok pr =>
          obtain ⟨rs2, retry2⟩ := pr
          simp [citedLoopD, hm, hd, hrec] at h
          obtain ⟨rfl, rfl⟩ := h
          intro r hr
          rw [List.mem_cons] at hr
          rcases hr with rfl | hr
          · rfl
          · exact ih hrec r hr
    · cases hrec : citedLoopD errs td bad (n + 1) rest with
      | error pe => simp [citedLoopD, hm, hrec] at h
      | ok pr =>
        obtain ⟨rs2, retry2⟩ := pr
        simp [citedLoopD, hm, hrec] at h
        obtain ⟨rfl, rfl⟩ := h
        exact ih hrec

theorem citedLoopV_results_failed {errs : List Json} {bad : List Int} :
    ∀ {n : Nat} {batch : List DTarget} {rs : List OutcomeRec} {retry : List DTarget},
    citedLoopV errs bad n batch = .ok (rs, retry) →
    ∀ r ∈ rs, r.result = "Failed" := by
  intro n batch
  induction batch generalizing n with
  | nil =>
    intro rs retry h
    simp [citedLoopV] at h
    simp [h.1]
  | cons d rest ih =>
    intro rs retry h
    by_cases hm : (n : Int) ∈ bad
    · cases hd : findTitleDetailV (n : Int) errs with
      | error e => simp [citedLoopV, hm, hd] at h
      | ok tdp =>
        obtain ⟨t, dt⟩ := tdp
        cases hrec : citedLoopV errs bad (n + 1) rest with
        | error pe => simp [citedLoopV, hm, hd, hrec] at h
        | ok pr =>
          obtain ⟨rs2, retry2⟩ := pr
          simp [citedLoopV, hm, hd, hrec] at h
          obtain ⟨rfl, rfl⟩ := h
          intro r hr
          rw [List.mem_cons] at hr
          rcases hr with rfl | hr
          · rfl
          · exact ih hrec r hr
    · cases hrec : citedLoopV errs bad (n + 1) rest with
      | error pe => simp [citedLoopV, hm, hrec] at h
      | ok pr =>
        obtain ⟨rs2, retry2⟩ := pr
        simp [citedLoopV, hm, hrec] at h
        obtain ⟨rfl, rfl⟩ := h
        exact ih hrec

theorem citedLoopD_ok_of_wellErr {errs : List Json} {td : Json} {bad : List Int}
    (hw : ∀ e ∈ errs, wellErr e) :
    ∀ (n : Nat) (batch : List DTarget), ∃ pr, citedLoopD errs td bad n batch = .ok pr := by
  intro n batch
  induction batch generalizing n with
  | nil => exact ⟨([], []), rfl⟩
  | cons d rest ih =>
    obtain ⟨⟨rs2, retry2⟩, hrec⟩ := ih (n + 1)
    by_cases hm : (n : Int) ∈ bad
    · exact ⟨(citedRecD 400 (specDetailRuleD (n : Int) errs td) d :: rs2, retry2),
        by simp [citedLoopD, hm, findDetailD_spec hw, hrec]⟩
    · exact ⟨(rs2, d :: retry2), by simp [citedLoopD, hm, hrec]⟩

theorem citedLoopV_ok_of_wellErr {errs : List Json} {bad : List Int}
    (hw : ∀ e ∈ errs, wellErr e) :
    ∀ (n : Nat) (batch : List DTarget), ∃ pr, citedLoopV errs bad n batch = .ok pr := by
  intro n batch
  induction batch generalizing n with
  | nil => exact ⟨([], []), rfl⟩
  | cons d rest ih =>
    obtain ⟨⟨rs2, retry2⟩, hrec⟩ := ih (n + 1)
    by_cases hm : (n : Int) ∈ bad
    · exact ⟨(citedRecV 400 (specTitleDetailRuleV (n : Int) errs).1
          (specTitleDetailRuleV (n : Int) errs).2 d :: rs2, retry2),
        by simp [citedLoopV, hm, findTitleDetailV_spec hw, hrec]⟩
    · exact ⟨(rs2, d :: retry2), by simp [citedLoopV, hm, hrec]⟩

/-- Every crash fallback of the delete flow fires with an empty partial-record
list: all exception points of the 400 parsing precede the first append. -/
theorem parse400D_crashed_nil {body : Except String Json} {batch : List DTarget}
    {p : List OutcomeRec} {msg : String}
    (h : parse400D body batch = .crashed p msg) : p = [] := by
  cases body with
  | error e => simp [parse400D] at h; exact h.1
  | ok errorData =>
    cases hg : pyGetE errorData "errors" (.arr []) with
    | error e => simp [parse400D, hg] at h; exact h.1
    | ok errsJ =>
      cases hit : pyIter errsJ with
      | error e => simp [parse400D, hg, hit] at h; exact h.1
      | ok errsList =>
        cases hcb : collectBadIdx errsList with
        | error e => simp [parse400D, hg, hit, hcb] at h; exact h.1
        | ok bad =>
          by_cases hbe : bad.isEmpty
          · simp [parse400D, hg, hit, hcb, hbe] at h
          · obtain ⟨pr, hok⟩ :=
              @citedLoopD_ok_of_wellErr errsList (pyGetO errorData "detail" .null) bad
                (collectBadIdx_wellErr hcb) 0 batch
            obtain ⟨rs, retry⟩ := pr
            simp [parse400D, hg, hit, hcb, hbe, hok] at h

/-- Every crash fallback of the validate flow fires with an empty
partial-record list. -/
theorem parse400V_crashed_nil {body : Except String Json} {batch : List DTarget}
    {p : List OutcomeRec} {msg : String}
    (h : parse400V body batch = .crashed p msg) : p = [] := by
  cases body with
  | error e => simp [parse400V] at h; exact h.1
  | ok errorData =>
    cases hg : pyGetE errorData "errors" (.arr []) with
    | error e => simp [parse400V, hg] at h; exact h.1
    | ok errsJ =>
      cases hit : pyIter errsJ with
      | error e => simp [parse400V, hg, hit] at h; exact h.1
      | ok errsList =>
        cases hcb : collectBadIdx errsList with
        | error e => simp [parse400V, hg, hit, hcb] at h; exact h.1
        | ok bad =>
          by_cases hbe : bad.isEmpty
          · simp [parse400V, hg, hit, hcb, hbe] at h
          · obtain ⟨pr, hok⟩ :=
              @citedLoopV_ok_of_wellErr errsList bad (collectBadIdx_wellErr hcb) 0 batch
            obtain ⟨rs, retry⟩ := pr
            simp [parse400V, hg, hit, hcb, hbe, hok] at h

/-- Inversion of the delete flow's split outcome: the split comes from the
enumerate loop over indices collected by the `bad_indices` pass. -/
theorem parse400D_split_inv {body : Except String Json} {batch : List DTarget}
    {cited : List OutcomeRec} {retry : List DTarget}
    (h : parse400D body batch = .split cited retry) :
    ∃ (errsList : List Json) (td : Json) (bad : List Int),
      collectBadIdx errsList = .ok bad ∧ bad ≠ [] ∧
      citedLoopD errsList td bad 0 batch = .ok (cited, retry) := by
  cases body with
  | error e => simp [parse400D] at h
  | ok errorData =>
    cases hg : pyGetE errorData "errors" (.arr []) with
    | error e => simp [parse400D, hg] at h
    | ok errsJ =>
      cases hit : pyIter errsJ with
      | error e => simp [parse400D, hg, hit] at h
      | ok errsList =>
        cases hcb : collectBadIdx errsList with
        | error e => simp [parse400D, hg, hit, hcb] at h
        | ok bad =>
          by_cases hbe : bad.isEmpty
          · simp [parse400D, hg, hit, hcb, hbe] at h
          · cases hok : citedLoopD errsList (pyGetO errorData "detail" .null) bad 0 batch with
            | error pe => simp [parse400D, hg, hit, hcb, hbe, hok] at h
            | ok pr =>
              obtain ⟨rs, retry2⟩ := pr
              simp [parse400D, hg, hit, hcb, hbe, hok] at h
              exact ⟨errsList, pyGetO errorData "detail" .null, bad, hcb,
                by simpa [List.isEmpty_iff] using hbe, by rw [hok, h.1, h.2]⟩

/-- Inversion of the validate flow's split outcome. -/
theorem parse400V_split_inv {body : Except String Json} {batch : List DTarget}
    {cited : List OutcomeRec} {retry : List DTarget}
    (h : parse400V body batch = .split cited retry) :
    ∃ (errsList : List Json) (bad : List Int),
      collectBadIdx errsList = .ok bad ∧ bad ≠ [] ∧
      citedLoopV errsList bad 0 batch = .ok (cited, retry) := by
  cases body with
  | error e => simp [parse400V] at h
  | ok errorData =>
    cases hg : pyGetE errorData "errors" (.arr []) with
    | error e => simp [parse400V, hg] at h
    | ok errsJ =>
      cases hit : pyIter errsJ with
      | error e => simp [parse400V, hg, hit] at h
      | ok errsList =>
        cases hcb : collectBadIdx errsList with
        | error e => simp [parse400V, hg, hit, hcb] at h
        | ok bad =>
          by_cases hbe : bad.isEmpty
          · simp [parse400V, hg, hit, hcb, hbe] at h
          · cases hok : citedLoopV errsList bad 0 batch with
            | error pe => simp [parse400V, hg, hit, hcb, hbe, hok] at h
            | ok pr =>
              obtain ⟨rs, retry2⟩ := pr
              simp [parse400V, hg, hit, hcb, hbe, hok] at h
              exact ⟨errsList, bad, hcb,
                by simpa [List.isEmpty_iff] using hbe, by rw [hok, h.1, h.2]⟩

/-! ### The delete-flow crash fallback and its name-based deduplication -/

theorem dedupCrashD_mem {codeN : Int} {msg : String} :
    ∀ {b : List DTarget} {acc : List OutcomeRec} {r : OutcomeRec},
    r ∈ dedupCrashD codeN msg acc b → r ∈ acc ∨ r.result = "Failed" := by
  intro b
  induction b with
  | nil => intro acc r h; exact Or.inl (by simpa [dedupCrashD] using h)
  | cons d rest ih =>
    intro acc r h
    rw [dedupCrashD] at h
    by_cases hc : acc.any (fun r => r.domain = d.domainName)
    · rw [if_pos hc] at h
      exact ih h
    · rw [if_neg hc] at h
      rcases ih h with hmem | hres
      · rw [List.mem_append] at hmem
        rcases hmem with hmem | hmem
        · exact Or.inl hmem
        · simp at hmem
          subst hmem
          exact Or.inr rfl
      · exact Or.inr hres

/-- With pairwise-distinct domain names (and an accumulator citing none of
them) the deduplicating fallback appends exactly one record per target. -/
theorem dedupCrashD_nodup {codeN : Int} {msg : String} :
    ∀ {b : List DTarget} {acc : List OutcomeRec},
    (b.map DTarget.domainName).Nodup →
    (∀ r ∈ acc, r.domain ∉ b.map DTarget.domainName) →
    dedupCrashD codeN msg acc b = acc ++ b.map (crashRecD codeN msg) := by
  intro b
  induction b with
  | nil => intro acc _ _; simp [dedupCrashD]
  | cons d rest ih =>
    intro acc hnd hacc
    rw [dedupCrashD]
    have hc : acc.any (fun r => r.domain = d.domainName) = false := by
      rw [List.any_eq_false]
      intro r hr
      simp only [decide_eq_true_eq]
      intro hEq
      exact hacc r hr (by simp [hEq])
    rw [if_neg (by simp [hc])]
    rw [List.map_cons] at hnd ⊢
    have hnd2 := hnd.of_cons
    have hd : d.domainName ∉ rest.map DTarget.domainName := by
      have := List.nodup_cons.mp hnd
      exact this.1
    rw [ih hnd2 ?side]
    case side =>
      intro r hr
      rw [List.mem_append] at hr
      rcases hr with hr | hr
      · intro hmem
        exact hacc r hr (List.mem_cons_of_mem _ hmem)
      · simp at hr
        subst hr
        simpa [crashRecD] using hd
    simp

/-! ### Coverage: the identity multiset of the records -/

theorem map_recTargetId_map (f : DTarget → OutcomeRec)
    (hf : ∀ d, recTargetId (f d) = targetId d) :
    ∀ l : List DTarget, (l.map f).map recTargetId = l.map targetId := by
  intro l
  induction l with
  | nil => rfl
  | cons d rest ih => simp only [List.map_cons, hf d, ih]

/-- The 200/202 branch is always a per-target map: either the generic
parse-failure record or a status-map lookup record. -/
theorem successRecsV_eq (codeN : Int) (body : Except String Json) (batch : List DTarget) :
    successRecsV codeN body batch = batch.map (parseFailRecV codeN) ∨
    ∃ pm nm, successRecsV codeN body batch =
      batch.map (fun d => submittedRecV codeN (lookupStatusFor pm nm d) d) := by
  unfold successRecsV
  split
  · exact Or.inl rfl
  · split
    · exact Or.inl rfl
    · split
      · exact Or.inl rfl
      · split
        · exact Or.inl rfl
        · exact Or.inr ⟨_, _, rfl⟩

/-- All branches of the validate flow's 200/202 handling cover exactly the
batch, record by record. -/
theorem successRecsV_ids (codeN : Int) (body : Except String Json) (batch : List DTarget) :
    (successRecsV codeN body batch).map recTargetId = batch.map targetId := by
  rcases successRecsV_eq codeN body batch with h | ⟨pm, nm, h⟩
  · rw [h]
    exact map_recTargetId_map (parseFailRecV codeN) (fun d => rfl) batch
  · rw [h]
    exact map_recTargetId_map
      (fun d => submittedRecV codeN (lookupStatusFor pm nm d) d) (fun d => rfl) batch

theorem successRecsV_results (codeN : Int) (body : Except String Json) (batch : List DTarget) :
    ∀ r ∈ successRecsV codeN body batch, r.result = "Submitted" := by
  intro r hr
  rcases successRecsV_eq codeN body batch with h | ⟨pm, nm, h⟩
  · rw [h] at hr
    obtain ⟨d, _, rfl⟩ := List.mem_map.mp hr
    rfl
  · rw [h] at hr
    obtain ⟨d, _, rfl⟩ := List.mem_map.mp hr
    rfl

/-- Coverage of `delete_domains` under pairwise-distinct domain names. -/
theorem deleteDomains_coverage {T : Transport} :
    ∀ (fuel tick : Nat) (batch : List DTarget) (rs : List OutcomeRec) (t2 : Nat),
    (batch.map DTarget.domainName).Nodup →
    deleteDomains T fuel tick batch = some (rs, t2) →
    List.Perm (rs.map recTargetId) (batch.map targetId) := by
  intro fuel
  induction fuel with
  | zero => intro tick batch rs t2 _ h; simp [deleteDomains] at h
  | succ fuel ih =>
    intro tick batch rs t2 hnd h
    rw [deleteDomains] at h
    cases hT : T tick batch with
    | httpExn msg =>
      rw [hT] at h
      obtain ⟨rfl, rfl⟩ : batch.map (exnRecD msg) = rs ∧ tick + 1 = t2 := by
        simpa using h
      rw [map_recTargetId_map (exnRecD msg) (fun d => rfl)]
    | http codeN body text =>
      simp only [hT] at h
      by_cases hc4 : codeN = 400
      · rw [if_pos hc4] at h
        subst hc4
        cases hp : parse400D body batch with
        | failAll title detail =>
          rw [hp] at h
          obtain ⟨rfl, rfl⟩ : batch.map (failAllRecD 400 title detail) = rs ∧ tick + 1 = t2 := by
            simpa using h
          rw [map_recTargetId_map (failAllRecD 400 title detail) (fun d => rfl)]
        | split cited retry =>
          simp only [hp] at h
          obtain ⟨errsList, td, bad, hcb, hbne, hloop⟩ := parse400D_split_inv hp
          by_cases hre : retry.isEmpty
          · rw [if_pos hre] at h
            obtain ⟨rfl, rfl⟩ : cited = rs ∧ tick + 1 = t2 := by simpa using h
            have hperm := citedLoopD_perm hloop
            rw [List.isEmpty_iff.mp hre] at hperm
            simpa using hperm.symm
          · rw [if_neg hre] at h
            cases hrec : deleteDomains T fuel (tick + 1) retry with
            | none => simp [hrec] at h
            | some pr =>
              obtain ⟨rs0, t0⟩ := pr
              rw [hrec] at h
              obtain ⟨rfl, rfl⟩ : cited ++ rs0 = rs ∧ t0 = t2 := by simpa using h
              have hsub : (retry.map DTarget.domainName).Sublist (batch.map DTarget.domainName) :=
                (citedLoopD_sublist hloop).map DTarget.domainName
              have hnd2 := hnd.sublist hsub
              have hperm0 := ih (tick + 1) retry rs0 t0 hnd2 hrec
              have hperm := citedLoopD_perm hloop
              rw [List.map_append]
              exact (hperm0.append_left (cited.map recTargetId)).trans hperm.symm
        | crashed p msg =>
          rw [hp] at h
          have hp0 : p = [] := parse400D_crashed_nil hp
          subst hp0
          obtain ⟨rfl, rfl⟩ : dedupCrashD 400 msg [] batch = rs ∧ tick + 1 = t2 := by
            simpa using h
          rw [dedupCrashD_nodup hnd (by intro r hr; cases hr)]
          simp only [List.nil_append]
          rw [map_recTargetId_map (crashRecD 400 msg) (fun d => rfl)]
      · rw [if_neg hc4] at h
        by_cases hcS : codeN = 200 ∨ codeN = 204
        · rw [if_pos hcS] at h
          obtain ⟨rfl, rfl⟩ : batch.map (successRecD codeN) = rs ∧ tick + 1 = t2 := by
            simpa using h
          rw [map_recTargetId_map (successRecD codeN) (fun d => rfl)]
        · rw [if_neg hcS] at h
          by_cases hc207 : codeN = 207
          · rw [if_pos hc207] at h
            cases body with
            | ok data =>
              obtain ⟨rfl, rfl⟩ : batch.map (multiRecD codeN (pyStr data)) = rs ∧ tick + 1 = t2 := by
                simpa using h
              rw [map_recTargetId_map (multiRecD codeN (pyStr data)) (fun d => rfl)]
            | error e =>
              obtain ⟨rfl, rfl⟩ : batch.map (multiRecD codeN text) = rs ∧ tick + 1 = t2 := by
                simpa using h
              rw [map_recTargetId_map (multiRecD codeN text) (fun d => rfl)]
          · rw [if_neg hc207] at h
            obtain ⟨rfl, rfl⟩ : batch.map (errorRecD codeN text) = rs ∧ tick + 1 = t2 := by
              simpa using h
            rw [map_recTargetId_map (errorRecD codeN text) (fun d => rfl)]

/-- Coverage of `bulk_submit_validation`, unconditionally. -/
theorem bulkSubmitValidation_coverage {T : Transport} :
    ∀ (fuel tick : Nat) (batch : List DTarget) (rs : List OutcomeRec) (t2 : Nat),
    bulkSubmitValidation T fuel tick batch = some (rs, t2) →
    List.Perm (rs.map recTargetId) (batch.map targetId) := by
  intro fuel
  induction fuel with
  | zero => intro tick batch rs t2 h; simp [bulkSubmitValidation] at h
  | succ fuel ih =>
    intro tick batch rs t2 h
    rw [bulkSubmitValidation] at h
    cases hT : T tick batch with
    | httpExn msg =>
      rw [hT] at h
      obtain ⟨rfl, rfl⟩ : batch.map (exnRecV msg) = rs ∧ tick + 1 = t2 := by simpa using h
      rw [map_recTargetId_map (exnRecV msg) (fun d => rfl)]
    | http codeN body text =>
      simp only [hT] at h
      by_cases hc4 : codeN = 400
      · rw [if_pos hc4] at h
        subst hc4
        cases hp : parse400V body batch with
        | failAll title detail dmsg =>
          rw [hp] at h
          obtain ⟨rfl, rfl⟩ : batch.map (failAllRecV 400 title detail dmsg) = rs ∧ tick + 1 = t2 := by
            simpa using h
          rw [map_recTargetId_map (failAllRecV 400 title detail dmsg) (fun d => rfl)]
        | split cited retry =>
          simp only [hp] at h
          obtain ⟨errsList, bad, hcb, hbne, hloop⟩ := parse400V_split_inv hp
          by_cases hre : retry.isEmpty
          · rw [if_pos hre] at h
            obtain ⟨rfl, rfl⟩ : cited = rs ∧ tick + 1 = t2 := by simpa using h
            have hperm := citedLoopV_perm hloop
            rw [List.isEmpty_iff.mp hre] at hperm
            simpa using hperm.symm
          · rw [if_neg hre] at h
            cases hrec : bulkSubmitValidation T fuel (tick + 1) retry with
            | none => simp [hrec] at h
            | some pr =>
              obtain ⟨rs0, t0⟩ := pr
              rw [hrec] at h
              obtain ⟨rfl, rfl⟩ : cited ++ rs0 = rs ∧ t0 = t2 := by simpa using h
              have hperm0 := ih (tick + 1) retry rs0 t0 hrec
              have hperm := citedLoopV_perm hloop
              rw [List.map_append]
              exact (hperm0.append_left (cited.map recTargetId)).trans hperm.symm
        | crashed p msg =>
          rw [hp] at h
          have hp0 : p = [] := parse400V_crashed_nil hp
          subst hp0
          obtain ⟨rfl, rfl⟩ : [] ++ batch.map (crashRecV 400 msg) = rs ∧ tick + 1 = t2 := by
            simpa using h
          simp only [List.nil_append]
          rw [map_recTargetId_map (crashRecV 400 msg) (fun d => rfl)]
      · rw [if_neg hc4] at h
        by_cases hcS : codeN = 200 ∨ codeN = 202
        · rw [if_pos hcS] at h
          obtain ⟨rfl, rfl⟩ : successRecsV codeN body batch = rs ∧ tick + 1 = t2 := by
            simpa using h
          rw [successRecsV_ids]
        · rw [if_neg hcS] at h
          obtain ⟨rfl, rfl⟩ : batch.map (errorRecV codeN text) = rs ∧ tick + 1 = t2 := by
            simpa using h
          rw [map_recTargetId_map (errorRecV codeN text) (fun d => rfl)]

/-! ### Result-field classification -/

theorem deleteDomains_results_classified {T : Transport} :
    ∀ (fuel tick : Nat) (batch : List DTarget) (rs : List OutcomeRec) (t2 : Nat),
    deleteDomains T fuel tick batch = some (rs, t2) →
    ∀ r ∈ rs, r.result ∈ (["Success", "Failed", "Error", "Exception", "Multi-Status"] : List String) := by
  intro fuel
  induction fuel with
  | zero => intro tick batch rs t2 h; simp [deleteDomains] at h
  | succ fuel ih =>
    intro tick batch rs t2 h
    rw [deleteDomains] at h
    cases hT : T tick batch with
    | httpExn msg =>
      rw [hT] at h
      obtain ⟨rfl, rfl⟩ : batch.map (exnRecD msg) = rs ∧ tick + 1 = t2 := by simpa using h
      intro r hr
      obtain ⟨d, _, rfl⟩ := List.mem_map.mp hr
      simp [exnRecD]
    | http codeN body text =>
      simp only [hT] at h
      by_cases hc4 : codeN = 400
      · rw [if_pos hc4] at h
        subst hc4
        cases hp : parse400D body batch with
        | failAll title detail =>
          rw [hp] at h
          obtain ⟨rfl, rfl⟩ : batch.map (failAllRecD 400 title detail) = rs ∧ tick + 1 = t2 := by
            simpa using h
          intro r hr
          obtain ⟨d, _, rfl⟩ := List.mem_map.mp hr
          simp [failAllRecD]
        | split cited retry =>
          simp only [hp] at h
          obtain ⟨errsList, td, bad, hcb, hbne, hloop⟩ := parse400D_split_inv hp
          by_cases hre : retry.isEmpty
          · rw [if_pos hre] at h
            obtain ⟨rfl, rfl⟩ : cited = rs ∧ tick + 1 = t2 := by simpa using h
            intro r hr
            have := citedLoopD_results_failed hloop r hr
            simp [this]
          · rw [if_neg hre] at h
            cases hrec : deleteDomains T fuel (tick + 1) retry with
            | none => simp [hrec] at h
            | some pr =>
              obtain ⟨rs0, t0⟩ := pr
              rw [hrec] at h
              obtain ⟨rfl, rfl⟩ : cited ++ rs0 = rs ∧ t0 = t2 := by simpa using h
              intro r hr
              rw [List.mem_append] at hr
              rcases hr with hr | hr
              · have := citedLoopD_results_failed hloop r hr
                simp [this]
              · exact ih (tick + 1) retry rs0 t0 hrec r hr
        | crashed p msg =>
          rw [hp] at h
          have hp0 : p = [] := parse400D_crashed_nil hp
          subst hp0
          obtain ⟨rfl, rfl⟩ : dedupCrashD 400 msg [] batch = rs ∧ tick + 1 = t2 := by
            simpa using h
          intro r hr
          rcases dedupCrashD_mem hr with hmem | hres
          · cases hmem
          · simp [hres]
      · rw [if_neg hc4] at h
        by_cases hcS : codeN = 200 ∨ codeN = 204
        · rw [if_pos hcS] at h
          obtain ⟨rfl, rfl⟩ : batch.map (successRecD codeN) = rs ∧ tick + 1 = t2 := by
            simpa using h
          intro r hr
          obtain ⟨d, _, rfl⟩ := List.mem_map.mp hr
          simp [successRecD]
        · rw [if_neg hcS] at h
          by_cases hc207 : codeN = 207
          · rw [if_pos hc207] at h
            cases body with
            | ok data =>
              obtain ⟨rfl, rfl⟩ : batch.map (multiRecD codeN (pyStr data)) = rs ∧ tick + 1 = t2 := by
                simpa using h
              intro r hr
              obtain ⟨d, _, rfl⟩ := List.mem_map.mp hr
              simp [multiRecD]
            | error e =>
              obtain ⟨rfl, rfl⟩ : batch.map (multiRecD codeN text) = rs ∧ tick + 1 = t2 := by
                simpa using h
              intro r hr
              obtain ⟨d, _, rfl⟩ := List.mem_map.mp hr
              simp [multiRecD]
          · rw [if_neg hc207] at h
            obtain ⟨rfl, rfl⟩ : batch.map (errorRecD codeN text) = rs ∧ tick + 1 = t2 := by
              simpa using h
            intro r hr
            obtain ⟨d, _, rfl⟩ := List.mem_map.mp hr
            simp [errorRecD]

theorem bulkSubmitValidation_results_classified {T : Transport} :
    ∀ (fuel tick : Nat) (batch : List DTarget) (rs : List OutcomeRec) (t2 : Nat),
    bulkSubmitValidation T fuel tick batch = some (rs, t2) →
    ∀ r ∈ rs, r.result ∈ (["Submitted", "Failed", "Error", "Exception"] : List String) := by
  intro fuel
  induction fuel with
  | zero => intro tick batch rs t2 h; simp [bulkSubmitValidation] at h
  | succ fuel ih =>
    intro tick batch rs t2 h
    rw [bulkSubmitValidation] at h
    cases hT : T tick batch with
    | httpExn msg =>
      rw [hT] at h
      obtain ⟨rfl, rfl⟩ : batch.map (exnRecV msg) = rs ∧ tick + 1 = t2 := by simpa using h
      intro r hr
      obtain ⟨d, _, rfl⟩ := List.mem_map.mp hr
      simp [exnRecV]
    | http codeN body text =>
      simp only [hT] at h
      by_cases hc4 : codeN = 400
      · rw [if_pos hc4] at h
        subst hc4
        cases hp : parse400V body batch with
        | failAll title detail dmsg =>
          rw [hp] at h
          obtain ⟨rfl, rfl⟩ : batch.map (failAllRecV 400 title detail dmsg) = rs ∧ tick + 1 = t2 := by
            simpa using h
          intro r hr
          obtain ⟨d, _, rfl⟩ := List.mem_map.mp hr
          simp [failAllRecV]
        | split cited retry =>
          simp only [hp] at h
          obtain ⟨errsList, bad, hcb, hbne, hloop⟩ := parse400V_split_inv hp
          by_cases hre : retry.isEmpty
          · rw [if_pos hre] at h
            obtain ⟨rfl, rfl⟩ : cited = rs ∧ tick + 1 = t2 := by simpa using h
            intro r hr
            have := citedLoopV_results_failed hloop r hr
            simp [this]
          · rw [if_neg hre] at h
            cases hrec : bulkSubmitValidation T fuel (tick + 1) retry with
            | none => simp [hrec] at h
            | some pr =>
              obtain ⟨rs0, t0⟩ := pr
              rw [hrec] at h
              obtain ⟨rfl, rfl⟩ : cited ++ rs0 = rs ∧ t0 = t2 := by simpa using h
              intro r hr
              rw [List.mem_append] at hr
              rcases hr with hr | hr
              · have := citedLoopV_results_failed hloop r hr
                simp [this]
              · exact ih (tick + 1) retry rs0 t0 hrec r hr
        | crashed p msg =>
          rw [hp] at h
          have hp0 : p = [] := parse400V_crashed_nil hp
          subst hp0
          obtain ⟨rfl, rfl⟩ : [] ++ batch.map (crashRecV 400 msg) = rs ∧ tick + 1 = t2 := by
            simpa using h
          intro r hr
          simp only [List.nil_append] at hr
          obtain ⟨d, _, rfl⟩ := List.mem_map.mp hr
          simp [crashRecV]
      · rw [if_neg hc4] at h
        by_cases hcS : codeN = 200 ∨ codeN = 202
        · rw [if_pos hcS] at h
          obtain ⟨rfl, rfl⟩ : successRecsV codeN body batch = rs ∧ tick + 1 = t2 := by
            simpa using h
          intro r hr
          have := successRecsV_results codeN body batch r hr
          simp [this]
        · rw [if_neg hcS] at h
          obtain ⟨rfl, rfl⟩ : batch.map (errorRecV codeN text) = rs ∧ tick + 1 = t2 := by
            simpa using h
          intro r hr
          obtain ⟨d, _, rfl⟩ := List.mem_map.mp hr
          simp [errorRecV]

/-! ### Termination under the strict-shrink condition -/

/-- If every 400 split the transport can provoke strictly shrinks the retried
subset, `fuel > |batch|` is enough for `delete_domains` to finish. -/
theorem deleteDomains_term {T : Transport}
    (hshrink : ∀ (tick : Nat) (batch : List DTarget) (body : Except String Json)
      (text : String) (cited : List OutcomeRec) (retry : List DTarget),
      T tick batch = .http 400 body text →
      parse400D body batch = .split cited retry →
      retry.length < batch.length) :
    ∀ (fuel tick : Nat) (batch : List DTarget), batch.length < fuel →
    (deleteDomains T fuel tick batch).isSome := by
  intro fuel
  induction fuel with
  | zero => intro tick batch h; exact absurd h (Nat.not_lt_zero _)
  | succ fuel ih =>
    intro tick batch hlen
    rw [deleteDomains]
    cases hT : T tick batch with
    | httpExn msg => simp
    | http codeN body text =>
      by_cases hc4 : codeN = 400
      · subst hc4
        cases hp : parse400D body batch with
        | failAll title detail => simp [hp]
        | split cited retry =>
          by_cases hre : retry.isEmpty
          · simp [hp, hre]
          · have hlt := hshrink tick batch body text cited retry hT hp
            have hrec := ih (tick + 1) retry (by omega)
            cases hrec2 : deleteDomains T fuel (tick + 1) retry with
            | none => rw [hrec2] at hrec; simp at hrec
            | some pr => simp [hp, hre, hrec2]
        | crashed p msg => simp [hp]
      · by_cases hcS : codeN = 200 ∨ codeN = 204
        · simp [hc4, hcS]
        · by_cases hc207 : codeN = 207
          · cases body with
            | ok data => simp [hc4, hcS, hc207]
            | error e => simp [hc4, hcS, hc207]
          · simp [hc4, hcS, hc207]

/-- Same for `bulk_submit_validation`. -/
theorem bulkSubmitValidation_term {T : Transport}
    (hshrink : ∀ (tick : Nat) (batch : List DTarget) (body : Except String Json)
      (text : String) (cited : List OutcomeRec) (retry : List DTarget),
      T tick batch = .http 400 body text →
      parse400V body batch = .split cited retry →
      retry.length < batch.length) :
    ∀ (fuel tick : Nat) (batch : List DTarget), batch.length < fuel →
    (bulkSubmitValidation T fuel tick batch).isSome := by
  intro fuel
  induction fuel with
  | zero => intro tick batch h; exact absurd h (Nat.not_lt_zero _)
  | succ fuel ih =>
    intro tick batch hlen
    rw [bulkSubmitValidation]
    cases hT : T tick batch with
    | httpExn msg => simp
    | http codeN body text =>
      by_cases hc4 : codeN = 400
      · subst hc4
        cases hp : parse400V body batch with
        | failAll title detail dmsg => simp [hp]
        | split cited retry =>
          by_cases hre : retry.isEmpty
          · simp [hp, hre]
          · have hlt := hshrink tick batch body text cited retry hT hp
            have hrec := ih (tick + 1) retry (by omega)
            cases hrec2 : bulkSubmitValidation T fuel (tick + 1) retry with
            | none => rw [hrec2] at hrec; simp at hrec
            | some pr => simp [hp, hre, hrec2]
        | crashed p msg => simp [hp]
      · by_cases hcS : codeN = 200 ∨ codeN = 202
        · simp [hc4, hcS]
        · simp [hc4, hcS]

/-! ### Batching arithmetic -/

theorem chunkedAux_sum {α : Type} {bs : Nat} (hbs : 0 < bs) :
    ∀ (fuel : Nat) (l : List α), l.length ≤ fuel →
    ((chunkedAux bs fuel l).map List.length).sum = l.length := by
  intro fuel
  induction fuel with
  | zero =>
    intro l h
    have : l.length = 0 := Nat.le_zero.mp h
    simp [chunkedAux, this]
  | succ fuel ih =>
    intro l h
    cases l with
    | nil => simp [chunkedAux]
    | cons a rest =>
      simp only [List.length_cons] at h
      have heq : chunkedAux bs (fuel + 1) (a :: rest) =
          (a :: rest).take bs :: chunkedAux bs fuel ((a :: rest).drop bs) := by
        rw [chunkedAux] <;> simp
      rw [heq]
      have hrec := ih ((a :: rest).drop bs)
        (by simp only [List.length_drop, List.length_cons]; omega)
      simp only [List.map_cons, List.sum_cons, hrec, List.length_take, List.length_drop,
        List.length_cons]
      omega

theorem chunked_sum {α : Type} {bs : Nat} (hbs : 0 < bs) (l : List α) :
    ((chunked bs l).map List.length).sum = l.length :=
  chunkedAux_sum hbs l.length l (Nat.le_refl _)

/-! ### Exact characterization of the enumerate split -/

theorem citedOfBatch_nil (bad : List Int) (n : Nat) : citedOfBatch bad n [] = [] := rfl

theorem uncitedOfBatch_nil (bad : List Int) (n : Nat) : uncitedOfBatch bad n [] = [] := rfl

theorem citedLoopD_char {errs : List Json} {td : Json} {bad : List Int}
    (hw : ∀ e ∈ errs, wellErr e) :
    ∀ {n : Nat} {batch : List DTarget} {rs : List OutcomeRec} {retry : List DTarget},
    citedLoopD errs td bad n batch = .ok (rs, retry) →
    rs = (citedOfBatch bad n batch).map
        (fun p => citedRecD 400 (specDetailRuleD (p.1 : Int) errs td) p.2) ∧
    retry = uncitedOfBatch bad n batch := by
  intro n batch
  induction batch generalizing n with
  | nil =>
    intro rs retry h
    simp [citedLoopD] at h
    obtain ⟨rfl, rfl⟩ := h
    simp [citedOfBatch_nil, uncitedOfBatch_nil]
  | cons d rest ih =>
    intro rs retry h
    by_cases hm : (n : Int) ∈ bad
    · have hd := findDetailD_spec hw (n : Int) td
      cases hrec : citedLoopD errs td bad (n + 1) rest with
      | error pe => simp [citedLoopD, hm, hd, hrec] at h
      | ok pr =>
        obtain ⟨rs2, retry2⟩ := pr
        simp [citedLoopD, hm, hd, hrec] at h
        obtain ⟨rfl, rfl⟩ := h
        obtain ⟨h1, h2⟩ := ih hrec
        constructor
        · rw [h1]
          simp [citedOfBatch, List.enumFrom, List.filter, hm]
        · rw [h2]
          simp [uncitedOfBatch, List.enumFrom, List.filter, hm]
    · cases hrec : citedLoopD errs td bad (n + 1) rest with
      | error pe => simp [citedLoopD, hm, hrec] at h
      | ok pr =>
        obtain ⟨rs2, retry2⟩ := pr
        simp [citedLoopD, hm, hrec] at h
        obtain ⟨rfl, rfl⟩ := h
        obtain ⟨h1, h2⟩ := ih hrec
        constructor
        · rw [h1]
          simp [citedOfBatch, List.enumFrom, List.filter, hm]
        · rw [h2]
          simp [uncitedOfBatch, List.enumFrom, List.filter, hm]

theorem citedLoopV_char {errs : List Json} {bad : List Int}
    (hw : ∀ e ∈ errs, wellErr e) :
    ∀ {n : Nat} {batch : List DTarget} {rs : List OutcomeRec} {retry : List DTarget},
    citedLoopV errs bad n batch = .ok (rs, retry) →
    rs = (citedOfBatch bad n batch).map
        (fun p => citedRecV 400 (specTitleDetailRuleV (p.1 : Int) errs).1
          (specTitleDetailRuleV (p.1 : Int) errs).2 p.2) ∧
    retry = uncitedOfBatch bad n batch := by
  intro n batch
  induction batch generalizing n with
  | nil =>
    intro rs retry h
    simp [citedLoopV] at h
    obtain ⟨rfl, rfl⟩ := h
    simp [citedOfBatch_nil, uncitedOfBatch_nil]
  | cons d rest ih =>
    intro rs retry h
    by_cases hm : (n : Int) ∈ bad
    · have hd := findTitleDetailV_spec hw (n : Int)
      cases hrec : citedLoopV errs bad (n + 1) rest with
      | error pe => simp [citedLoopV, hm, hd, hrec] at h
      | ok pr =>
        obtain ⟨rs2, retry2⟩ := pr
        simp [citedLoopV, hm, hd, hrec] at h
        obtain ⟨rfl, rfl⟩ := h
        obtain ⟨h1, h2⟩ := ih hrec
        constructor
        · rw [h1]
          simp [citedOfBatch, List.enumFrom, List.filter, hm]
        · rw [h2]
          simp [uncitedOfBatch, List.enumFrom, List.filter, hm]
    · cases hrec : citedLoopV errs bad (n + 1) rest with
      | error pe => simp [citedLoopV, hm, hrec] at h
      | ok pr =>
        obtain ⟨rs2, retry2⟩ := pr
        simp [citedLoopV, hm, hrec] at h
        obtain ⟨rfl, rfl⟩ := h
        obtain ⟨h1, h2⟩ := ih hrec
        constructor
        · rw [h1]
          simp [citedOfBatch, List.enumFrom, List.filter, hm]
        · rw [h2]
          simp [uncitedOfBatch, List.enumFrom, List.filter, hm]

/-! ### Claim theorems -/

/-- Claim C10: in the validate flow, for a target list of length N and a limit
L > 0 (with a positive batch size), exactly min(L, N) targets are submitted in
total across all batches: the limit truncates before batching. -/
theorem c10_limit_truncation (entries : List DTarget) (limit bs : Nat)
    (hl : 0 < limit) (hb : 0 < bs) :
    ((processBatchesV limit bs entries).map List.length).sum = min limit entries.length := by
  unfold processBatchesV limitEntries
  rw [if_pos hl, chunked_sum hb]
  simp [List.length_take]

/-- Witness for C10: with 7 targets, limit 5 and batch size 2, exactly 5
targets are submitted. -/
theorem c10_limit_truncation_witness :
    ((processBatchesV 5 2 (List.replicate 7 ⟨"a.com", "DOMAIN"⟩)).map List.length).sum =
      min 5 (List.replicate 7 (⟨"a.com", "DOMAIN"⟩ : DTarget)).length :=
  c10_limit_truncation (List.replicate 7 ⟨"a.com", "DOMAIN"⟩) 5 2 (by decide) (by decide)

/-- Claim C7 counterexample: in the validate flow a 409 is recorded as a plain
Error record; no GET-detail fallback exists in `bulk_submit_validation`. -/
theorem c7_409_counterexample :
    bulkSubmitValidation (fun _ _ => .http 409 (.ok Json.null) "conflict") 1 0
        [⟨"a.com", "DOMAIN"⟩] =
      some ([errorRecV 409 "conflict" ⟨"a.com", "DOMAIN"⟩], 1) ∧
    (errorRecV 409 "conflict" ⟨"a.com", "DOMAIN"⟩).result = "Error" :=
  ⟨rfl, rfl⟩

/-- Claim C7 amended: only the create flow handles 409: it issues exactly one
GET (third component) whose recovered pair supersedes the POST outcome; the
validate flow records a 409 as an Error for every target with no GET. -/
theorem c7_409_amended :
    (∀ (postBody : Except String Json) (text : String) (getR : HttpResp) (dom : String),
      createDomainValidation (.http 409 postBody text) getR dom =
        ((getDomainDetails getR).1, (getDomainDetails getR).2, 1)) ∧
    (∀ (T : Transport) (fuel tick : Nat) (batch : List DTarget)
       (body : Except String Json) (text : String),
      T tick batch = .http 409 body text →
      bulkSubmitValidation T (fuel + 1) tick batch =
        some (batch.map (errorRecV 409 text), tick + 1)) := by
  constructor
  · intro postBody text getR dom
    rfl
  · intro T fuel tick batch body text hT
    simp [bulkSubmitValidation, hT]

/-- Witness for C7 amended: a concrete 409 on create yields the GET's token
with exactly one GET, and a concrete validate 409 yields Error records. -/
theorem c7_409_witness :
    createDomainValidation (.http 409 (.ok Json.null) "conflict")
        (.http 200 (.ok (Json.obj [("validationChallenge",
          Json.obj [("txtRecord", Json.obj [("name", Json.str "_acme"),
            ("value", Json.str "tok123")])])])) "") "a.com" =
      ((getDomainDetails (.http 200 (.ok (Json.obj [("validationChallenge",
          Json.obj [("txtRecord", Json.obj [("name", Json.str "_acme"),
            ("value", Json.str "tok123")])])])) "")).1,
       (getDomainDetails (.http 200 (.ok (Json.obj [("validationChallenge",
          Json.obj [("txtRecord", Json.obj [("name", Json.str "_acme"),
            ("value", Json.str "tok123")])])])) "")).2, 1) ∧
    bulkSubmitValidation (fun _ _ => .http 409 (.ok Json.null) "conflict") 1 0
        [⟨"a.com", "DOMAIN"⟩] =
      some ([⟨"a.com", "DOMAIN"⟩].map (errorRecV 409 "conflict"), 1) :=
  ⟨c7_409_amended.1 (.ok Json.null) "conflict" _ "a.com",
   c7_409_amended.2 (fun _ _ => .http 409 (.ok Json.null) "conflict") 0 0
     [⟨"a.com", "DOMAIN"⟩] (.ok Json.null) "conflict" rfl⟩

/-- Claim C6 counterexample: a 202 response makes `delete_domains` emit an
Error record, not a Success record. -/
theorem c6_success_codes_counterexample :
    (deleteDomains (fun _ _ => .http 202 (.ok Json.null) "accepted") 1 0
        [⟨"a.com", "DOMAIN"⟩]).map (fun pr => pr.1.map (fun r => r.result)) =
      some ["Error"] ∧ ("Error" : String) ≠ "Success" :=
  ⟨rfl, by decide⟩

/-- Claim C6 amended: each flow accepts only its own success codes: delete
succeeds on 200/204 and records 201/202 as Error; validate submits on 200/202
and records 201/204 as Error; create rejects 202/204 with an `Error: code`
pair. -/
theorem c6_success_codes_amended :
    (∀ (T : Transport) (fuel tick : Nat) (batch : List DTarget)
       (body : Except String Json) (text : String) (codeN : Int),
      (codeN = 200 ∨ codeN = 204) → T tick batch = .http codeN body text →
      deleteDomains T (fuel + 1) tick batch =
        some (batch.map (successRecD codeN), tick + 1)) ∧
    (∀ (T : Transport) (fuel tick : Nat) (batch : List DTarget)
       (body : Except String Json) (text : String) (codeN : Int),
      (codeN = 201 ∨ codeN = 202) → T tick batch = .http codeN body text →
      deleteDomains T (fuel + 1) tick batch =
        some (batch.map (errorRecD codeN text), tick + 1)) ∧
    (∀ (T : Transport) (fuel tick : Nat) (batch : List DTarget)
       (body : Except String Json) (text : String) (codeN : Int),
      (codeN = 200 ∨ codeN = 202) → T tick batch = .http codeN body text →
      bulkSubmitValidation T (fuel + 1) tick batch =
        some (successRecsV codeN body batch, tick + 1) ∧
      ∀ r ∈ successRecsV codeN body batch, r.result = "Submitted") ∧
    (∀ (T : Transport) (fuel tick : Nat) (batch : List DTarget)
       (body : Except String Json) (text : String) (codeN : Int),
      (codeN = 201 ∨ codeN = 204) → T tick batch = .http codeN body text →
      bulkSubmitValidation T (fuel + 1) tick batch =
        some (batch.map (errorRecV codeN text), tick + 1)) ∧
    (∀ (body : Except String Json) (text : String) (getR : HttpResp) (dom : String)
       (codeN : Int), (codeN = 202 ∨ codeN = 204) →
      createDomainValidation (.http codeN body text) getR dom =
        (.str ("Error: " ++ intToStr codeN), .str ("Error: " ++ intToStr codeN), 0)) := by
  refine ⟨?_, ?_, ?_, ?_, ?_⟩
  · intro T fuel tick batch body text codeN hc hT
    rcases hc with rfl | rfl <;> simp [deleteDomains, hT]
  · intro T fuel tick batch body text codeN hc hT
    rcases hc with rfl | rfl <;> simp [deleteDomains, hT]
  · intro T fuel tick batch body text codeN hc hT
    refine ⟨?_, successRecsV_results codeN body batch⟩
    rcases hc with rfl | rfl <;> simp [bulkSubmitValidation, hT]
  · intro T fuel tick batch body text codeN hc hT
    rcases hc with rfl | rfl <;> simp [bulkSubmitValidation, hT]
  · intro body text getR dom codeN hc
    rcases hc with rfl | rfl <;> rfl

/-- Witness for C6 amended: concrete 204 delete success, 202 delete error,
200 validate submit, 204 validate error, and 202 create rejection. -/
theorem c6_success_codes_witness :
    deleteDomains (fun _ _ => .http 204 (.ok Json.null) "") 1 0 [⟨"a.com", "DOMAIN"⟩] =
      some ([⟨"a.com", "DOMAIN"⟩].map (successRecD 204), 1) ∧
    deleteDomains (fun _ _ => .http 202 (.ok Json.null) "t") 1 0 [⟨"a.com", "DOMAIN"⟩] =
      some ([⟨"a.com", "DOMAIN"⟩].map (errorRecD 202 "t"), 1) ∧
    bulkSubmitValidation (fun _ _ => .http 200 (.ok Json.null) "") 1 0 [⟨"a.com", "DOMAIN"⟩] =
      some (successRecsV 200 (.ok Json.null) [⟨"a.com", "DOMAIN"⟩], 1) ∧
    bulkSubmitValidation (fun _ _ => .http 204 (.ok Json.null) "t") 1 0 [⟨"a.com", "DOMAIN"⟩] =
      some ([⟨"a.com", "DOMAIN"⟩].map (errorRecV 204 "t"), 1) ∧
    createDomainValidation (.http 202 (.ok Json.null) "") (.httpExn "no") "a.com" =
      (.str ("Error: " ++ intToStr 202), .str ("Error: " ++ intToStr 202), 0) :=
  ⟨c6_success_codes_amended.1 _ 0 0 _ _ _ 204 (Or.inr rfl) rfl,
   c6_success_codes_amended.2.1 _ 0 0 _ _ _ 202 (Or.inr rfl) rfl,
   (c6_success_codes_amended.2.2.1 _ 0 0 _ _ _ 200 (Or.inl rfl) rfl).1,
   c6_success_codes_amended.2.2.2.1 _ 0 0 _ _ _ 204 (Or.inr rfl) rfl,
   c6_success_codes_amended.2.2.2.2 _ _ _ "a.com" 202 (Or.inl rfl)⟩

/-- Claim C1 counterexample: in `delete_domains`, a batch holding two targets
that share a domain name loses one of them when the 400-parsing crash fallback
runs (the fallback deduplicates by domain name alone): two targets yield one
record. -/
theorem c1_coverage_counterexample :
    (deleteDomains (fun _ _ => .http 400 (.ok (Json.arr [])) "") 1 0
        [⟨"a.com", "DOMAIN"⟩, ⟨"a.com", "M_HOST"⟩]).map (fun pr => pr.1.map recTargetId) =
      some [("a.com", "DOMAIN")] ∧
    ¬ List.Perm [(("a.com", "DOMAIN") : String × String)]
        ([⟨"a.com", "DOMAIN"⟩, ⟨"a.com", "M_HOST"⟩].map targetId) := by
  refine ⟨rfl, fun h => ?_⟩
  have := h.length_eq
  simp at this

/-- Claim C1 amended: the validate submitter always returns records whose
identity multiset equals the input batch's; the delete submitter does so
provided the batch's domain names are pairwise distinct (its crash fallback
deduplicates by name only). -/
theorem c1_coverage_amended :
    (∀ (T : Transport) (fuel tick : Nat) (batch : List DTarget)
       (rs : List OutcomeRec) (t2 : Nat),
      bulkSubmitValidation T fuel tick batch = some (rs, t2) →
      List.Perm (rs.map recTargetId) (batch.map targetId)) ∧
    (∀ (T : Transport) (fuel tick : Nat) (batch : List DTarget)
       (rs : List OutcomeRec) (t2 : Nat),
      (batch.map DTarget.domainName).Nodup →
      deleteDomains T fuel tick batch = some (rs, t2) →
      List.Perm (rs.map recTargetId) (batch.map targetId)) :=
  ⟨fun _ fuel tick batch rs t2 h => bulkSubmitValidation_coverage fuel tick batch rs t2 h,
   fun _ fuel tick batch rs t2 hnd h => deleteDomains_coverage fuel tick batch rs t2 hnd h⟩

/-- Witness for C1 amended: both coverage statements applied to a concrete
transport-exception run over a two-target batch. -/
theorem c1_coverage_witness :
    List.Perm (([⟨"a.com", "DOMAIN"⟩, ⟨"b.com", "DOMAIN"⟩].map (exnRecV "boom")).map recTargetId)
      ([⟨"a.com", "DOMAIN"⟩, ⟨"b.com", "DOMAIN"⟩].map targetId) ∧
    List.Perm (([⟨"a.com", "DOMAIN"⟩, ⟨"b.com", "DOMAIN"⟩].map (exnRecD "boom")).map recTargetId)
      ([⟨"a.com", "DOMAIN"⟩, ⟨"b.com", "DOMAIN"⟩].map targetId) :=
  ⟨c1_coverage_amended.1 (fun _ _ => .httpExn "boom") 1 0
      [⟨"a.com", "DOMAIN"⟩, ⟨"b.com", "DOMAIN"⟩] _ 1 rfl,
   c1_coverage_amended.2 (fun _ _ => .httpExn "boom") 1 0
      [⟨"a.com", "DOMAIN"⟩, ⟨"b.com", "DOMAIN"⟩] _ 1 (by decide) rfl⟩

/-- Claim C4: the submitters never raise past the batch boundary: a transport
exception or an unparseable 400 body becomes per-target records, and every
record a terminating run returns carries one of the flow's result labels. -/
theorem c4_never_throws :
    (∀ (T : Transport) (fuel tick : Nat) (batch : List DTarget) (msg : String),
      T tick batch = .httpExn msg →
      deleteDomains T (fuel + 1) tick batch = some (batch.map (exnRecD msg), tick + 1)) ∧
    (∀ (T : Transport) (fuel tick : Nat) (batch : List DTarget) (msg : String),
      T tick batch = .httpExn msg →
      bulkSubmitValidation T (fuel + 1) tick batch =
        some (batch.map (exnRecV msg), tick + 1)) ∧
    (∀ (T : Transport) (fuel tick : Nat) (batch : List DTarget) (e text : String),
      T tick batch = .http 400 (.error e) text →
      deleteDomains T (fuel + 1) tick batch =
        some (dedupCrashD 400 e [] batch, tick + 1)) ∧
    (∀ (T : Transport) (fuel tick : Nat) (batch : List DTarget) (e text : String),
      T tick batch = .http 400 (.error e) text →
      bulkSubmitValidation T (fuel + 1) tick batch =
        some (batch.map (crashRecV 400 e), tick + 1)) ∧
    (∀ (T : Transport) (fuel tick : Nat) (batch : List DTarget)
       (rs : List OutcomeRec) (t2 : Nat),
      deleteDomains T fuel tick batch = some (rs, t2) →
      ∀ r ∈ rs, r.result ∈ (["Success", "Failed", "Error", "Exception", "Multi-Status"] : List String)) ∧
    (∀ (T : Transport) (fuel tick : Nat) (batch : List DTarget)
       (rs : List OutcomeRec) (t2 : Nat),
      bulkSubmitValidation T fuel tick batch = some (rs, t2) →
      ∀ r ∈ rs, r.result ∈ (["Submitted", "Failed", "Error", "Exception"] : List String)) := by
  refine ⟨?_, ?_, ?_, ?_, ?_, ?_⟩
  · intro T fuel tick batch msg hT
    simp [deleteDomains, hT]
  · intro T fuel tick batch msg hT
    simp [bulkSubmitValidation, hT]
  · intro T fuel tick batch e text hT
    simp [deleteDomains, hT, parse400D]
  · intro T fuel tick batch e text hT
    simp [bulkSubmitValidation, hT, parse400V]
  · exact fun _ fuel tick batch rs t2 h => deleteDomains_results_classified fuel tick batch rs t2 h
  · exact fun _ fuel tick batch rs t2 h =>
      bulkSubmitValidation_results_classified fuel tick batch rs t2 h

/-- Witness for C4: each conjunct applied to a concrete one-target run. -/
theorem c4_never_throws_witness :
    deleteDomains (fun _ _ => .httpExn "down") 1 0 [⟨"a.com", "DOMAIN"⟩] =
      some ([⟨"a.com", "DOMAIN"⟩].map (exnRecD "down"), 1) ∧
    bulkSubmitValidation (fun _ _ => .httpExn "down") 1 0 [⟨"a.com", "DOMAIN"⟩] =
      some ([⟨"a.com", "DOMAIN"⟩].map (exnRecV "down"), 1) ∧
    deleteDomains (fun _ _ => .http 400 (.error "bad json") "x") 1 0 [⟨"a.com", "DOMAIN"⟩] =
      some (dedupCrashD 400 "bad json" [] [⟨"a.com", "DOMAIN"⟩], 1) ∧
    bulkSubmitValidation (fun _ _ => .http 400 (.error "bad json") "x") 1 0 [⟨"a.com", "DOMAIN"⟩] =
      some ([⟨"a.com", "DOMAIN"⟩].map (crashRecV 400 "bad json"), 1) ∧
    (∀ r ∈ [⟨"a.com", "DOMAIN"⟩].map (exnRecD "down"),
      r.result ∈ (["Success", "Failed", "Error", "Exception", "Multi-Status"] : List String)) ∧
    (∀ r ∈ [⟨"a.com", "DOMAIN"⟩].map (exnRecV "down"),
      r.result ∈ (["Submitted", "Failed", "Error", "Exception"] : List String)) :=
  ⟨c4_never_throws.1 (fun _ _ => .httpExn "down") 0 0 [⟨"a.com", "DOMAIN"⟩] "down" rfl,
   c4_never_throws.2.1 (fun _ _ => .httpExn "down") 0 0 [⟨"a.com", "DOMAIN"⟩] "down" rfl,
   c4_never_throws.2.2.1 (fun _ _ => .http 400 (.error "bad json") "x") 0 0
     [⟨"a.com", "DOMAIN"⟩] "bad json" "x" rfl,
   c4_never_throws.2.2.2.1 (fun _ _ => .http 400 (.error "bad json") "x") 0 0
     [⟨"a.com", "DOMAIN"⟩] "bad json" "x" rfl,
   c4_never_throws.2.2.2.2.1 (fun _ _ => .httpExn "down") 1 0 [⟨"a.com", "DOMAIN"⟩] _ 1 rfl,
   c4_never_throws.2.2.2.2.2 (fun _ _ => .httpExn "down") 1 0 [⟨"a.com", "DOMAIN"⟩] _ 1 rfl⟩

/-- Claim C5: a 400 whose errors list yields no extractable index makes both
submitters emit exactly one Failed record per current-batch target, carrying
the body's top-level title and detail, with no recursive resubmission (the
returned tick shows a single HTTP call). -/
theorem c5_unparseable_400 :
    (∀ (T : Transport) (fuel tick : Nat) (batch : List DTarget) (ed errsJ : Json)
       (errs : List Json) (text : String),
      T tick batch = .http 400 (.ok ed) text →
      pyGetE ed "errors" (.arr []) = .ok errsJ →
      pyIter errsJ = .ok errs →
      collectBadIdx errs = .ok [] →
      deleteDomains T (fuel + 1) tick batch =
        some (batch.map (failAllRecD 400 (pyGetO ed "title" .null) (pyGetO ed "detail" .null)),
          tick + 1)) ∧
    (∀ (T : Transport) (fuel tick : Nat) (batch : List DTarget) (ed errsJ : Json)
       (errs : List Json) (text : String),
      T tick batch = .http 400 (.ok ed) text →
      pyGetE ed "errors" (.arr []) = .ok errsJ →
      pyIter errsJ = .ok errs →
      collectBadIdx errs = .ok [] →
      bulkSubmitValidation T (fuel + 1) tick batch =
        some (batch.map (failAllRecV 400 (pyGetO ed "title" .null) (pyGetO ed "detail" .null)
          (pyGetO ed "detail" (.str "Unknown Error"))), tick + 1)) := by
  constructor
  · intro T fuel tick batch ed errsJ errs text hT hg hit hcb
    have hp : parse400D (.ok ed) batch =
        .failAll (pyGetO ed "title" .null) (pyGetO ed "detail" .null) := by
      simp [parse400D, hg, hit, hcb]
    simp [deleteDomains, hT, hp]
  · intro T fuel tick batch ed errsJ errs text hT hg hit hcb
    have hp : parse400V (.ok ed) batch =
        .failAll (pyGetO ed "title" .null) (pyGetO ed "detail" .null)
          (pyGetO ed "detail" (.str "Unknown Error")) := by
      simp [parse400V, hg, hit, hcb]
    simp [bulkSubmitValidation, hT, hp]

/-- Witness for C5: a concrete 400 whose single error entry has no
`domains[i]`-shaped field marks both targets Failed with the top-level
title/detail in both flows. -/
theorem c5_unparseable_400_witness :
    deleteDomains
        (fun _ _ => .http 400 (.ok (Json.obj [("title", Json.str "T"), ("detail", Json.str "TOP"),
          ("errors", Json.arr [Json.obj [("field", Json.str "domainName")]])])) "") 1 0
        [⟨"a.com", "DOMAIN"⟩, ⟨"b.com", "DOMAIN"⟩] =
      some ([⟨"a.com", "DOMAIN"⟩, ⟨"b.com", "DOMAIN"⟩].map
        (failAllRecD 400
          (pyGetO (Json.obj [("title", Json.str "T"), ("detail", Json.str "TOP"),
            ("errors", Json.arr [Json.obj [("field", Json.str "domainName")]])]) "title" .null)
          (pyGetO (Json.obj [("title", Json.str "T"), ("detail", Json.str "TOP"),
            ("errors", Json.arr [Json.obj [("field", Json.str "domainName")]])]) "detail" .null)),
        1) ∧
    bulkSubmitValidation
        (fun _ _ => .http 400 (.ok (Json.obj [("title", Json.str "T"), ("detail", Json.str "TOP"),
          ("errors", Json.arr [Json.obj [("field", Json.str "domainName")]])])) "") 1 0
        [⟨"a.com", "DOMAIN"⟩, ⟨"b.com", "DOMAIN"⟩] =
      some ([⟨"a.com", "DOMAIN"⟩, ⟨"b.com", "DOMAIN"⟩].map
        (failAllRecV 400
          (pyGetO (Json.obj [("title", Json.str "T"), ("detail", Json.str "TOP"),
            ("errors", Json.arr [Json.obj [("field", Json.str "domainName")]])]) "title" .null)
          (pyGetO (Json.obj [("title", Json.str "T"), ("detail", Json.str "TOP"),
            ("errors", Json.arr [Json.obj [("field", Json.str "domainName")]])]) "detail" .null)
          (pyGetO (Json.obj [("title", Json.str "T"), ("detail", Json.str "TOP"),
            ("errors", Json.arr [Json.obj [("field", Json.str "domainName")]])]) "detail"
              (.str "Unknown Error"))),
        1) :=
  ⟨c5_unparseable_400.1 _ 0 0 [⟨"a.com", "DOMAIN"⟩, ⟨"b.com", "DOMAIN"⟩]
      (Json.obj [("title", Json.str "T"), ("detail", Json.str "TOP"),
        ("errors", Json.arr [Json.obj [("field", Json.str "domainName")]])])
      (Json.arr [Json.obj [("field", Json.str "domainName")]])
      [Json.obj [("field", Json.str "domainName")]] "" rfl rfl rfl rfl,
   c5_unparseable_400.2 _ 0 0 [⟨"a.com", "DOMAIN"⟩, ⟨"b.com", "DOMAIN"⟩]
      (Json.obj [("title", Json.str "T"), ("detail", Json.str "TOP"),
        ("errors", Json.arr [Json.obj [("field", Json.str "domainName")]])])
      (Json.arr [Json.obj [("field", Json.str "domainName")]])
      [Json.obj [("field", Json.str "domainName")]] "" rfl rfl rfl rfl⟩

/-- Claim C2 counterexample: a transport that always answers 400 citing only
the out-of-range index 5 makes the retried subset equal the whole batch, and
both submitters recurse forever (no fuel suffices). -/
theorem c2_termination_counterexample :
    deleteDiverges
      (fun _ _ => .http 400 (.ok (Json.obj [("errors",
        Json.arr [Json.obj [("field", Json.str "domains[5].domainName")]])])) "")
      [⟨"a.com", "DOMAIN"⟩] ∧
    validateDiverges
      (fun _ _ => .http 400 (.ok (Json.obj [("errors",
        Json.arr [Json.obj [("field", Json.str "domains[5].domainName")]])])) "")
      [⟨"a.com", "DOMAIN"⟩] := by
  constructor
  · intro fuel
    induction fuel with
    | zero => intro tick; rfl
    | succ fuel ih =>
      intro tick
      have hp : parse400D (.ok (Json.obj [("errors",
          Json.arr [Json.obj [("field", Json.str "domains[5].domainName")]])]))
          [⟨"a.com", "DOMAIN"⟩] = .split [] [⟨"a.com", "DOMAIN"⟩] := rfl
      cases hin : deleteDomains
          (fun _ _ => .http 400 (.ok (Json.obj [("errors",
            Json.arr [Json.obj [("field", Json.str "domains[5].domainName")]])])) "")
          fuel (tick + 1) [⟨"a.com", "DOMAIN"⟩] with
      | some pr => rw [ih (tick + 1)] at hin; exact Option.noConfusion hin
      | none => simp [deleteDomains, hp, hin]
  · intro fuel
    induction fuel with
    | zero => intro tick; rfl
    | succ fuel ih =>
      intro tick
      have hp : parse400V (.ok (Json.obj [("errors",
          Json.arr [Json.obj [("field", Json.str "domains[5].domainName")]])]))
          [⟨"a.com", "DOMAIN"⟩] = .split [] [⟨"a.com", "DOMAIN"⟩] := rfl
      cases hin : bulkSubmitValidation
          (fun _ _ => .http 400 (.ok (Json.obj [("errors",
            Json.arr [Json.obj [("field", Json.str "domains[5].domainName")]])])) "")
          fuel (tick + 1) [⟨"a.com", "DOMAIN"⟩] with
      | some pr => rw [ih (tick + 1)] at hin; exact Option.noConfusion hin
      | none => simp [bulkSubmitValidation, hp, hin]

/-- Claim C2 amended: the retried subset is strictly smaller exactly when some
cited index is in range; under a transport whose 400 splits always shrink,
fuel exceeding the batch size guarantees the recursion finishes. -/
theorem c2_termination_amended :
    (∀ (errs : List Json) (td : Json) (bad : List Int) (batch : List DTarget)
       (rs : List OutcomeRec) (retry : List DTarget),
      citedLoopD errs td bad 0 batch = .ok (rs, retry) →
      (∃ k : Nat, k < batch.length ∧ (k : Int) ∈ bad) →
      retry.length < batch.length) ∧
    (∀ (errs : List Json) (bad : List Int) (batch : List DTarget)
       (rs : List OutcomeRec) (retry : List DTarget),
      citedLoopV errs bad 0 batch = .ok (rs, retry) →
      (∃ k : Nat, k < batch.length ∧ (k : Int) ∈ bad) →
      retry.length < batch.length) ∧
    (∀ (T : Transport),
      (∀ (tick : Nat) (batch : List DTarget) (body : Except String Json)
         (text : String) (cited : List OutcomeRec) (retry : List DTarget),
        T tick batch = .http 400 body text →
        parse400D body batch = .split cited retry →
        retry.length < batch.length) →
      ∀ (fuel tick : Nat) (batch : List DTarget), batch.length < fuel →
      (deleteDomains T fuel tick batch).isSome) ∧
    (∀ (T : Transport),
      (∀ (tick : Nat) (batch : List DTarget) (body : Except String Json)
         (text : String) (cited : List OutcomeRec) (retry : List DTarget),
        T tick batch = .http 400 body text →
        parse400V body batch = .split cited retry →
        retry.length < batch.length) →
      ∀ (fuel tick : Nat) (batch : List DTarget), batch.length < fuel →
      (bulkSubmitValidation T fuel tick batch).isSome) := by
  refine ⟨?_, ?_, ?_, ?_⟩
  · intro errs td bad batch rs retry h hex
    refine citedLoopD_shrink h ?_
    obtain ⟨k, hk, hkb⟩ := hex
    exact ⟨k, hk, by simpa using hkb⟩
  · intro errs bad batch rs retry h hex
    refine citedLoopV_shrink h ?_
    obtain ⟨k, hk, hkb⟩ := hex
    exact ⟨k, hk, by simpa using hkb⟩
  · exact fun T hs fuel tick batch hlen => deleteDomains_term hs fuel tick batch hlen
  · exact fun T hs fuel tick batch hlen => bulkSubmitValidation_term hs fuel tick batch hlen

/-- Witness for C2 amended: a concrete in-range citation shrinks a two-target
batch to one retry member, and a transport that never answers 400 satisfies
the shrink hypothesis, so both submitters finish with fuel 2 on one target. -/
theorem c2_termination_witness :
    ([(⟨"b.com", "DOMAIN"⟩ : DTarget)].length < [(⟨"a.com", "DOMAIN"⟩ : DTarget),
        ⟨"b.com", "DOMAIN"⟩].length) ∧
    (deleteDomains (fun _ _ => .http 500 (.error "srv") "oops") 2 0
      [⟨"a.com", "DOMAIN"⟩]).isSome ∧
    (bulkSubmitValidation (fun _ _ => .http 500 (.error "srv") "oops") 2 0
      [⟨"a.com", "DOMAIN"⟩]).isSome := by
  refine ⟨?_, ?_, ?_⟩
  · exact c2_termination_amended.1
      [Json.obj [("field", Json.str "domains[0].domainName"), ("detail", Json.str "D0")]]
      (Json.str "TOP") [0] [⟨"a.com", "DOMAIN"⟩, ⟨"b.com", "DOMAIN"⟩]
      [citedRecD 400 (Json.str "D0") ⟨"a.com", "DOMAIN"⟩] [⟨"b.com", "DOMAIN"⟩]
      rfl ⟨0, by decide, by decide⟩
  · exact c2_termination_amended.2.2.1 (fun _ _ => .http 500 (.error "srv") "oops")
      (fun tick batch body text cited retry hT hp => by
        injection hT with h1 h2 h3
        exact absurd h1 (by decide))
      2 0 [⟨"a.com", "DOMAIN"⟩] (by decide)
  · exact c2_termination_amended.2.2.2 (fun _ _ => .http 500 (.error "srv") "oops")
      (fun tick batch body text cited retry hT hp => by
        injection hT with h1 h2 h3
        exact absurd h1 (by decide))
      2 0 [⟨"a.com", "DOMAIN"⟩] (by decide)

/-- Claim C3: on a 400 whose parsed split leaves a non-empty uncited subset,
the submitter emits the cited targets' Failed records and recurses exactly once
on exactly the uncited targets (in original order), appending the results; the
split itself puts Failed records exactly at the cited positions and retries
exactly the uncited positions. -/
theorem c3_index_localization :
    (∀ (T : Transport) (fuel tick : Nat) (batch : List DTarget)
       (body : Except String Json) (text : String)
       (cited : List OutcomeRec) (retry : List DTarget),
      T tick batch = .http 400 body text →
      parse400D body batch = .split cited retry →
      retry ≠ [] →
      deleteDomains T (fuel + 1) tick batch =
        (deleteDomains T fuel (tick + 1) retry).map (fun pr => (cited ++ pr.1, pr.2))) ∧
    (∀ (T : Transport) (fuel tick : Nat) (batch : List DTarget)
       (body : Except String Json) (text : String)
       (cited : List OutcomeRec) (retry : List DTarget),
      T tick batch = .http 400 body text →
      parse400V body batch = .split cited retry →
      retry ≠ [] →
      bulkSubmitValidation T (fuel + 1) tick batch =
        (bulkSubmitValidation T fuel (tick + 1) retry).map (fun pr => (cited ++ pr.1, pr.2))) ∧
    (∀ (errs : List Json) (td : Json) (bad : List Int) (batch : List DTarget)
       (cited : List OutcomeRec) (retry : List DTarget),
      collectBadIdx errs = .ok bad →
      citedLoopD errs td bad 0 batch = .ok (cited, retry) →
      cited = (citedOfBatch bad 0 batch).map
        (fun p => citedRecD 400 (specDetailRuleD (p.1 : Int) errs td) p.2) ∧
      retry = uncitedOfBatch bad 0 batch) ∧
    (∀ (errs : List Json) (bad : List Int) (batch : List DTarget)
       (cited : List OutcomeRec) (retry : List DTarget),
      collectBadIdx errs = .ok bad →
      citedLoopV errs bad 0 batch = .ok (cited, retry) →
      cited = (citedOfBatch bad 0 batch).map
        (fun p => citedRecV 400 (specTitleDetailRuleV (p.1 : Int) errs).1
          (specTitleDetailRuleV (p.1 : Int) errs).2 p.2) ∧
      retry = uncitedOfBatch bad 0 batch) := by
  refine ⟨?_, ?_, ?_, ?_⟩
  · intro T fuel tick batch body text cited retry hT hp hre
    have hempty : retry.isEmpty = false := by
      cases retry with
      | nil => exact absurd rfl hre
      | cons a l => rfl
    cases hin : deleteDomains T fuel (tick + 1) retry with
    | none => simp [deleteDomains, hT, hp, hempty, hin]
    | some pr =>
      obtain ⟨rs0, t0⟩ := pr
      simp [deleteDomains, hT, hp, hempty, hin]
  · intro T fuel tick batch body text cited retry hT hp hre
    have hempty : retry.isEmpty = false := by
      cases retry with
      | nil => exact absurd rfl hre
      | cons a l => rfl
    cases hin : bulkSubmitValidation T fuel (tick + 1) retry with
    | none => simp [bulkSubmitValidation, hT, hp, hempty, hin]
    | some pr =>
      obtain ⟨rs0, t0⟩ := pr
      simp [bulkSubmitValidation, hT, hp, hempty, hin]
  · intro errs td bad batch cited retry hcb hloop
    exact citedLoopD_char (collectBadIdx_wellErr hcb) hloop
  · intro errs bad batch cited retry hcb hloop
    exact citedLoopV_char (collectBadIdx_wellErr hcb) hloop

/-- Witness for C3: a 400 citing index 1 of a two-target batch fails exactly
the second target, retries exactly the first, and the characterization holds
at the same concrete inputs. -/
theorem c3_index_localization_witness :
    deleteDomains
        (fun _ _ => .http 400 (.ok (Json.obj [("detail", Json.str "TOP"), ("errors",
          Json.arr [Json.obj [("field", Json.str "domains[1].domainName"),
            ("detail", Json.str "D1")]])])) "") 1 0
        [⟨"a.com", "DOMAIN"⟩, ⟨"b.com", "DOMAIN"⟩] =
      (deleteDomains
        (fun _ _ => .http 400 (.ok (Json.obj [("detail", Json.str "TOP"), ("errors",
          Json.arr [Json.obj [("field", Json.str "domains[1].domainName"),
            ("detail", Json.str "D1")]])])) "") 0 1
        [⟨"a.com", "DOMAIN"⟩]).map
          (fun pr => ([citedRecD 400 (Json.str "D1") ⟨"b.com", "DOMAIN"⟩] ++ pr.1, pr.2)) ∧
    bulkSubmitValidation
        (fun _ _ => .http 400 (.ok (Json.obj [("detail", Json.str "TOP"), ("errors",
          Json.arr [Json.obj [("field", Json.str "domains[1].domainName"),
            ("detail", Json.str "D1")]])])) "") 1 0
        [⟨"a.com", "DOMAIN"⟩, ⟨"b.com", "DOMAIN"⟩] =
      (bulkSubmitValidation
        (fun _ _ => .http 400 (.ok (Json.obj [("detail", Json.str "TOP"), ("errors",
          Json.arr [Json.obj [("field", Json.str "domains[1].domainName"),
            ("detail", Json.str "D1")]])])) "") 0 1
        [⟨"a.com", "DOMAIN"⟩]).map
          (fun pr => ([citedRecV 400 (Json.str "Invalid Request") (Json.str "D1")
            ⟨"b.com", "DOMAIN"⟩] ++ pr.1, pr.2)) ∧
    ([citedRecD 400 (Json.str "D1") ⟨"b.com", "DOMAIN"⟩] =
      (citedOfBatch [1] 0 [⟨"a.com", "DOMAIN"⟩, ⟨"b.com", "DOMAIN"⟩]).map
        (fun p => citedRecD 400 (specDetailRuleD (p.1 : Int)
          [Json.obj [("field", Json.str "domains[1].domainName"), ("detail", Json.str "D1")]]
          (Json.str "TOP")) p.2) ∧
     [(⟨"a.com", "DOMAIN"⟩ : DTarget)] =
      uncitedOfBatch [1] 0 [⟨"a.com", "DOMAIN"⟩, ⟨"b.com", "DOMAIN"⟩]) ∧
    ([citedRecV 400 (Json.str "Invalid Request") (Json.str "D1") ⟨"b.com", "DOMAIN"⟩] =
      (citedOfBatch [1] 0 [⟨"a.com", "DOMAIN"⟩, ⟨"b.com", "DOMAIN"⟩]).map
        (fun p => citedRecV 400 (specTitleDetailRuleV (p.1 : Int)
          [Json.obj [("field", Json.str "domains[1].domainName"), ("detail", Json.str "D1")]]).1
          (specTitleDetailRuleV (p.1 : Int)
          [Json.obj [("field", Json.str "domains[1].domainName"), ("detail", Json.str "D1")]]).2
          p.2) ∧
     [(⟨"a.com", "DOMAIN"⟩ : DTarget)] =
      uncitedOfBatch [1] 0 [⟨"a.com", "DOMAIN"⟩, ⟨"b.com", "DOMAIN"⟩]) :=
  ⟨c3_index_localization.1 _ 0 0 [⟨"a.com", "DOMAIN"⟩, ⟨"b.com", "DOMAIN"⟩] _ ""
      [citedRecD 400 (Json.str "D1") ⟨"b.com", "DOMAIN"⟩] [⟨"a.com", "DOMAIN"⟩]
      rfl rfl (by decide),
   c3_index_localization.2.1 _ 0 0 [⟨"a.com", "DOMAIN"⟩, ⟨"b.com", "DOMAIN"⟩] _ ""
      [citedRecV 400 (Json.str "Invalid Request") (Json.str "D1") ⟨"b.com", "DOMAIN"⟩]
      [⟨"a.com", "DOMAIN"⟩] rfl rfl (by decide),
   c3_index_localization.2.2.1
      [Json.obj [("field", Json.str "domains[1].domainName"), ("detail", Json.str "D1")]]
      (Json.str "TOP") [1] [⟨"a.com", "DOMAIN"⟩, ⟨"b.com", "DOMAIN"⟩]
      [citedRecD 400 (Json.str "D1") ⟨"b.com", "DOMAIN"⟩] [⟨"a.com", "DOMAIN"⟩] rfl rfl,
   c3_index_localization.2.2.2
      [Json.obj [("field", Json.str "domains[1].domainName"), ("detail", Json.str "D1")]]
      [1] [⟨"a.com", "DOMAIN"⟩, ⟨"b.com", "DOMAIN"⟩]
      [citedRecV 400 (Json.str "Invalid Request") (Json.str "D1") ⟨"b.com", "DOMAIN"⟩]
      [⟨"a.com", "DOMAIN"⟩] rfl rfl⟩

/-- Claim C8 counterexample: with error entries `domains[0].domains[2].x`
(detail D0) and `domains[2].y` (detail D2) over a three-target batch, the
target at index 2 receives detail D0 — the first entry merely *containing*
the substring `domains[2]` — not D2 from the entry referencing exactly index
2, and index 0 receives D0 rather than the top-level-detail fallback the
claim's exact-match rule would give. -/
theorem c8_detail_attribution_counterexample :
    (deleteDomains
        (fun t _ => if t = 0 then
          .http 400 (.ok (Json.obj [("detail", Json.str "TOP"), ("errors", Json.arr
            [Json.obj [("field", Json.str "domains[0].domains[2].x"),
               ("detail", Json.str "D0")],
             Json.obj [("field", Json.str "domains[2].y"),
               ("detail", Json.str "D2")]])])) ""
          else .http 200 (.ok Json.null) "") 2 0
        [⟨"x0", "DOMAIN"⟩, ⟨"x1", "DOMAIN"⟩, ⟨"x2", "DOMAIN"⟩]).map
      (fun pr => pr.1.map (fun r => (r.domain, r.errorDetail))) =
      some [("x0", some (Json.str "D0")), ("x2", some (Json.str "D0")), ("x1", none)] ∧
    Json.str "D0" ≠ Json.str "D2" ∧ Json.str "D0" ≠ Json.str "TOP" := by
  refine ⟨rfl, ?_, ?_⟩
  · intro h
    rw [Json.str.injEq] at h
    exact absurd h (by decide)
  · intro h
    rw [Json.str.injEq] at h
    exact absurd h (by decide)

/-- Claim C8 amended: on well-formed error entries, the detail attributed to
cited index `i` is that of the first entry whose field *contains* the
substring `domains[i]` (which may cite other indices too); when no entry
contains it, the delete flow falls back to the top-level detail while the
validate flow falls back to the literal `"Invalid Request"` for both title and
detail. -/
theorem c8_detail_attribution_amended :
    (∀ (errs : List Json) (td : Json) (i : Int), (∀ e ∈ errs, wellErr e) →
      findDetailD i errs td = .ok (specDetailRuleD i errs td)) ∧
    (∀ (errs : List Json) (i : Int), (∀ e ∈ errs, wellErr e) →
      findTitleDetailV i errs = .ok (specTitleDetailRuleV i errs)) :=
  ⟨fun _ td i hw => findDetailD_spec hw i td,
   fun _ i hw => findTitleDetailV_spec hw i⟩

/-- Witness for C8 amended: both detail rules evaluated on a concrete
single-entry errors list. -/
theorem c8_detail_attribution_witness :
    findDetailD 0 [Json.obj [("field", Json.str "domains[0].x"), ("detail", Json.str "D")]]
        (Json.str "TOP") =
      .ok (specDetailRuleD 0
        [Json.obj [("field", Json.str "domains[0].x"), ("detail", Json.str "D")]]
        (Json.str "TOP")) ∧
    findTitleDetailV 0
        [Json.obj [("field", Json.str "domains[0].x"), ("detail", Json.str "D")]] =
      .ok (specTitleDetailRuleV 0
        [Json.obj [("field", Json.str "domains[0].x"), ("detail", Json.str "D")]]) :=
  ⟨c8_detail_attribution_amended.1 _ (Json.str "TOP") 0
      (by
        intro e he
        simp only [List.mem_singleton] at he
        subst he
        exact ⟨"domains[0].x", rfl⟩),
   c8_detail_attribution_amended.2 _ 0
      (by
        intro e he
        simp only [List.mem_singleton] at he
        subst he
        exact ⟨"domains[0].x", rfl⟩)⟩

theorem rowToTargetVal_none_props {di : Nat} {row : List (Option String)} {t : DTarget}
    (h : rowToTargetVal di none row = some t) :
    t.validationScope = "DOMAIN" ∧
    ∃ cell : String, t.domainName = pyLower (pyStrip cell) ∧ pyStrip cell ≠ "" := by
  cases hc : (row[di]?).getD none with
  | none => simp [rowToTargetVal, List.getD, hc] at h
  | some dstr =>
    by_cases hb : pyStrip dstr = ""
    · simp [rowToTargetVal, List.getD, hc, hb] at h
    · simp [rowToTargetVal, List.getD, hc, hb] at h
      subst h
      exact ⟨rfl, dstr, rfl, hb⟩

/-- Claim C9 counterexample: with no scope-like column, the delete flow's
reader exits with an error instead of defaulting, while the validate flow's
reader defaults the scope to DOMAIN. -/
theorem c9_scope_default_counterexample :
    readDeleteTargets ⟨["Domain"], [[some "A.com"]]⟩ =
      .error "validationScope column required but not found" ∧
    readDomainsV ⟨["Domain"], [[some "A.com"]]⟩ = .ok [⟨"a.com", "DOMAIN"⟩] :=
  ⟨rfl, rfl⟩

/-- Claim C9 amended: when no scope-like column matches, `read_delete_targets`
exits with an error, while the validate flow's `read_domains` defaults every
produced target's scope to DOMAIN; produced domains are trimmed, lower-cased
non-blank cells. -/
theorem c9_scope_default_amended :
    (∀ s : Sheet, findColIdx (s.cols.map pyStrip) scopeColNames = none →
      ∃ e, readDeleteTargets s = .error e) ∧
    (∀ (s : Sheet) (ts : List DTarget), findColIdx (s.cols.map pyStrip) scopeColNames = none →
      readDomainsV s = .ok ts →
      ∀ t ∈ ts, t.validationScope = "DOMAIN" ∧
        ∃ cell : String, t.domainName = pyLower (pyStrip cell) ∧ pyStrip cell ≠ "") := by
  constructor
  · intro s hns
    cases hd : findColIdx (s.cols.map pyStrip) domainColNames with
    | some di =>
      exact ⟨"validationScope column required but not found",
        by simp [readDeleteTargets, hd, hns]⟩
    | none =>
      by_cases he : (s.cols.map pyStrip).isEmpty = true
      · exact ⟨"Error reading Excel file", by simp [readDeleteTargets, hd, he]⟩
      · exact ⟨"validationScope column required but not found",
          by simp [readDeleteTargets, hd, he, hns]⟩
  · intro s ts hns h t ht
    cases hd : findColIdx (s.cols.map pyStrip) domainColNames with
    | some di =>
      simp [readDomainsV, hd, hns] at h
      subst h
      obtain ⟨row, hrow, hsome⟩ := List.mem_filterMap.mp ht
      exact rowToTargetVal_none_props hsome
    | none =>
      by_cases he : (s.cols.map pyStrip).isEmpty = true
      · simp [readDomainsV, hd, he] at h
      · simp [readDomainsV, hd, he, hns] at h
        subst h
        obtain ⟨row, hrow, hsome⟩ := List.mem_filterMap.mp ht
        exact rowToTargetVal_none_props hsome

/-- Witness for C9 amended: both parts applied to concrete sheets with no
scope column. -/
theorem c9_scope_default_witness :
    (∃ e, readDeleteTargets ⟨["Domain"], [[some " A.Com "]]⟩ = .error e) ∧
    ((⟨"a.com", "DOMAIN"⟩ : DTarget).validationScope = "DOMAIN" ∧
      ∃ cell : String, (⟨"a.com", "DOMAIN"⟩ : DTarget).domainName = pyLower (pyStrip cell) ∧
        pyStrip cell ≠ "") :=
  ⟨c9_scope_default_amended.1 ⟨["Domain"], [[some " A.Com "]]⟩ rfl,
   c9_scope_default_amended.2 ⟨["Domain"], [[some " A.Com "]]⟩ [⟨"a.com", "DOMAIN"⟩]
     rfl rfl ⟨"a.com", "DOMAIN"⟩ (by decide)⟩
